import Mathlib

/-!
Verification of the "burrow" lending core of the USN contract.

Conventions of the shallow embedding:
- u128 / u64 values are modelled as Nat. Arithmetic that can panic in Rust
  (subtraction underflow, `assert!`, `expect`, division by zero inside U256)
  is modelled by Option-returning functions where the panic is reachable:
  `none` is a panic, which aborts the whole batch before anything is
  persisted (the host persists state only once at the end of an invocation).
- The fixed-point decimal type lives in big_decimal.rs, which is declared in
  burrow.rs but is not part of the provided sources; it is modelled from the
  spec as exact rationals, see the `BigDecimal` section below.
- Maps (HashMap / UnorderedMap / LookupMap) are modelled as association
  lists with the helpers `alookup` / `ainsert` / `aremove`.
-/

abbrev TokenId := String

section AssocList

variable {κ β : Type} [DecidableEq κ]

/-- Lookup in an association list (models HashMap / LookupMap get). -/
def alookup : List (κ × β) → κ → Option β
  | [], _ => none
  | (k', v) :: t, k => if k' = k then some v else alookup t k

/-- Remove a key from an association list (models HashMap remove). -/
def aremove : List (κ × β) → κ → List (κ × β)
  | [], _ => []
  | (k', v) :: t, k => if k' = k then aremove t k else (k', v) :: aremove t k

/-- Insert/replace a binding (models HashMap insert; iteration order of a
HashMap is unspecified, so placing the new binding first is adequate). -/
def ainsert (l : List (κ × β)) (k : κ) (v : β) : List (κ × β) :=
  (k, v) :: aremove l k

theorem alookup_aremove_ne (l : List (κ × β)) (k k' : κ) (h : k ≠ k') :
    alookup (aremove l k) k' = alookup l k' := by
  induction l with
  | nil => rfl
  | cons hd t ih =>
    obtain ⟨k0, v0⟩ := hd
    by_cases hk : k0 = k
    · subst hk
      simp [aremove, alookup, h, ih]
    · simp only [aremove, if_neg hk]
      by_cases hk' : k0 = k'
      · simp [alookup, hk']
      · simp [alookup, hk', ih]

theorem alookup_ainsert_self (l : List (κ × β)) (k : κ) (v : β) :
    alookup (ainsert l k v) k = some v := by
  simp [ainsert, alookup]

theorem alookup_ainsert_ne (l : List (κ × β)) (k k' : κ) (v : β) (h : k ≠ k') :
    alookup (ainsert l k v) k' = alookup l k' := by
  simp [ainsert, alookup, fun h' => h h', alookup_aremove_ne l k k' h]

end AssocList

section NatDivHelpers

/-- Rounded-up division bound: the ceiling-style quotient used throughout the
pool code is at most `y` as soon as `x ≤ B * y`. -/
theorem ceil_div_le (x B y : Nat) (hB : 0 < B) (h : x ≤ B * y) :
    (x + (B - 1)) / B ≤ y := by
  have hx : x + (B - 1) ≤ B * y + (B - 1) := by omega
  exact (Nat.div_le_iff_le_mul_add_pred hB).2 hx

/-- Rounded-up division lower bound: multiplying the ceiling-style quotient
back by the divisor dominates the original value. -/
theorem le_ceil_div_mul (x B : Nat) (hB : 0 < B) :
    x ≤ (x + (B - 1)) / B * B := by
  have h := Nat.div_add_mod (x + (B - 1)) B
  have hr : (x + (B - 1)) % B < B := Nat.mod_lt _ hB
  rw [Nat.mul_comm] at h
  generalize (x + (B - 1)) / B * B = m at h ⊢
  omega

/-- Unfolding lemma for the monadic bind on Option as produced by
do-notation. -/
theorem option_bind_eq_some_helper {α β : Type} (x : Option α) (f : α → Option β) (b : β) :
    (x >>= f) = some b ↔ ∃ a, x = some a ∧ f a = some b := Option.bind_eq_some

end NatDivHelpers

/-! ## Pool (src/burrow/pool.rs)

The share ledger for one side of one asset. `usn_interest` stores the
accumulated USN interest (always 0 for non-USN assets). -/

structure Pool where
  shares : Nat
  balance : Nat
  usn_interest : Nat
deriving DecidableEq, Repr

def Pool.new : Pool := ⟨0, 0, 0⟩

/-- Pool::amount_to_shares (pool.rs lines 27-40). 256-bit intermediate
arithmetic never overflows for u128 inputs, so plain Nat is exact. -/
def Pool.amount_to_shares (p : Pool) (amount : Nat) (round_up : Bool) : Nat :=
  if p.balance = 0 then amount
  else
    let extra := if round_up then p.balance - 1 else 0
    (p.shares * amount + extra) / p.balance

/-- Pool::shares_to_amount (pool.rs lines 42-58). The `assert!` that fires
when `shares < balance` but `shares > total_shares` is modelled as `none`. -/
def Pool.shares_to_amount (p : Pool) (shares : Nat) (round_up : Bool) : Option Nat :=
  if p.balance ≤ shares ∨ shares = p.shares then some p.balance
  else if shares < p.shares then
    let extra := if round_up then p.shares - 1 else 0
    some ((p.balance * shares + extra) / p.shares)
  else none

/-- Pool::assert_invariant (pool.rs lines 60-63). -/
def Pool.invariant (p : Pool) : Prop := p.shares ≤ p.balance

instance (p : Pool) : Decidable p.invariant := by unfold Pool.invariant; infer_instance

/-- Pool::deposit (pool.rs lines 65-68). -/
def Pool.deposit (p : Pool) (shares amount : Nat) : Pool :=
  { p with shares := p.shares + shares, balance := p.balance + amount }

/-- Pool::withdraw (pool.rs lines 70-73); u128 subtraction underflow panics,
modelled as `none`. -/
def Pool.withdraw (p : Pool) (shares amount : Nat) : Option Pool :=
  if shares ≤ p.shares ∧ amount ≤ p.balance then
    some { p with shares := p.shares - shares, balance := p.balance - amount }
  else none

/-! Sequences of pool operations as they are shaped at the protocol call
sites (actions.rs): a deposit converts the amount to shares rounding down
(internal_deposit line 192); an amount-specified withdrawal converts the
amount to shares rounding up (asset_amount_to_shares with `!round_up` and
`round_up = false`); a shares-specified withdrawal converts the shares to an
amount rounding down (asset_amount_to_shares max/None branches). -/

inductive PoolOp where
  | deposit (amount : Nat)
  | withdrawAmount (amount : Nat)
  | withdrawShares (shares : Nat)
deriving DecidableEq, Repr

def Pool.step (p : Pool) : PoolOp → Option Pool
  | .deposit a => some (p.deposit (p.amount_to_shares a false) a)
  | .withdrawAmount a => p.withdraw (p.amount_to_shares a true) a
  | .withdrawShares s => do
      let a ← p.shares_to_amount s false
      p.withdraw s a

def Pool.run (p : Pool) : List PoolOp → Option Pool
  | [] => some p
  | op :: ops => do
      let p' ← p.step op
      p'.run ops

/-! ## Claim C1: pool round-trip bound -/

/-- Claim C1, as stated in the spec, is false: for the pool
`{shares = 1, balance = 10}` and `amount = 5`, the left round trip
`shares_to_amount(amount_to_shares(5, true), false)` yields 10 > 5 (the
single rounded-up share short-circuits to the whole balance), and the right
round trip yields 0 < 5. -/
theorem pool_round_trip_claim_false :
    ¬ (∀ (p : Pool) (a lo hi : Nat),
        p.shares_to_amount (p.amount_to_shares a true) false = some lo →
        p.shares_to_amount (p.amount_to_shares a false) true = some hi →
        lo ≤ a ∧ a ≤ hi) := by
  intro h
  have h5 := h ⟨1, 10, 0⟩ 5 10 0 (by decide) (by decide)
  omega

/-- Claim C1 (amended): for every pool state satisfying the stored-pool
invariants (`shares ≤ balance`, enforced by `assert_invariant`, and
`balance = 0` whenever `shares = 0`, enforced by the sweep in
`internal_set_asset`) and every `amount ≤ balance`, the round-trip bound
holds with the two `round_up` flags swapped relative to the claim:
`shares_to_amount(amount_to_shares(amount, false), true) ≤ amount ≤
shares_to_amount(amount_to_shares(amount, true), false)`, and neither
conversion panics. -/
theorem pool_round_trip_bound (p : Pool) (a : Nat)
    (hinv : p.invariant) (hz : p.shares = 0 → p.balance = 0) (ha : a ≤ p.balance) :
    ∃ lo hi,
      p.shares_to_amount (p.amount_to_shares a false) true = some lo ∧
      p.shares_to_amount (p.amount_to_shares a true) false = some hi ∧
      lo ≤ a ∧ a ≤ hi := by
  unfold Pool.invariant at hinv
  by_cases hB0 : p.balance = 0
  · have hS : p.shares = 0 := by omega
    have ha0 : a = 0 := by omega
    refine ⟨p.balance, p.balance, ?_, ?_, by omega, by omega⟩ <;>
      simp [Pool.amount_to_shares, Pool.shares_to_amount, hB0, hS, ha0]
  · have hBpos : 0 < p.balance := Nat.pos_of_ne_zero hB0
    have hSpos : 0 < p.shares := by
      rcases Nat.eq_zero_or_pos p.shares with h | h
      · exact absurd (hz h) hB0
      · exact h
    have hlo : ∃ lo, p.shares_to_amount (p.amount_to_shares a false) true = some lo ∧ lo ≤ a := by
      have hs_def : p.amount_to_shares a false = p.shares * a / p.balance := by
        simp [Pool.amount_to_shares, hB0]
      set s := p.shares * a / p.balance with hs
      have hsB : s * p.balance ≤ p.shares * a := Nat.div_mul_le_self _ _
      have hsS : s ≤ p.shares := by
        have h1 : p.shares * a / p.balance ≤ p.shares * p.balance / p.balance :=
          Nat.div_le_div_right (Nat.mul_le_mul_left _ ha)
        rwa [Nat.mul_div_cancel _ hBpos] at h1
      rw [hs_def]
      by_cases hc : p.balance ≤ s ∨ s = p.shares
      · refine ⟨p.balance, ?_, ?_⟩
        · simp [Pool.shares_to_amount, hc]
        · rcases hc with hc | hc
          · have hsEq : s = p.shares := by omega
            have hSB : p.shares = p.balance := by omega
            have h2 := hsB
            rw [hsEq, hSB] at h2
            exact Nat.le_of_mul_le_mul_left h2 hBpos
          · have h2 := hsB
            rw [hc] at h2
            exact Nat.le_of_mul_le_mul_left h2 hSpos
      · push_neg at hc
        have hsltS : s < p.shares := lt_of_le_of_ne hsS hc.2
        refine ⟨(p.balance * s + (p.shares - 1)) / p.shares, ?_, ?_⟩
        · simp [Pool.shares_to_amount, hc.1.not_le, hc.2, hsltS]
        · exact ceil_div_le _ _ _ hSpos (by rw [Nat.mul_comm p.balance s]; exact hsB)
    have hhi : ∃ hi, p.shares_to_amount (p.amount_to_shares a true) false = some hi ∧ a ≤ hi := by
      have hs_def : p.amount_to_shares a true =
          (p.shares * a + (p.balance - 1)) / p.balance := by
        simp [Pool.amount_to_shares, hB0]
      set s := (p.shares * a + (p.balance - 1)) / p.balance with hs
      have hsB : p.shares * a ≤ s * p.balance := by
        rw [hs]; exact le_ceil_div_mul _ _ hBpos
      have hsS : s ≤ p.shares := by
        rw [hs]
        exact ceil_div_le _ _ _ hBpos
          (by rw [Nat.mul_comm p.balance p.shares]; exact Nat.mul_le_mul_left _ ha)
      rw [hs_def]
      by_cases hc : p.balance ≤ s ∨ s = p.shares
      · exact ⟨p.balance, by simp [Pool.shares_to_amount, hc], ha⟩
      · push_neg at hc
        have hsltS : s < p.shares := lt_of_le_of_ne hsS hc.2
        refine ⟨(p.balance * s + 0) / p.shares, ?_, ?_⟩
        · simp [Pool.shares_to_amount, hc.1.not_le, hc.2, hsltS]
        · rw [Nat.add_zero]
          exact (Nat.le_div_iff_mul_le hSpos).2 (by rw [Nat.mul_comm a p.shares, Nat.mul_comm p.balance s]; omega)
    obtain ⟨lo, hlo1, hlo2⟩ := hlo
    obtain ⟨hi, hhi1, hhi2⟩ := hhi
    exact ⟨lo, hi, hlo1, hhi1, hlo2, hhi2⟩

/-- Witness for the amended C1 bound at the pool `{shares = 3, balance = 10}`
and `amount = 4`. -/
theorem pool_round_trip_bound_witness :
    ∃ lo hi,
      Pool.shares_to_amount ⟨3, 10, 0⟩ (Pool.amount_to_shares ⟨3, 10, 0⟩ 4 false) true = some lo ∧
      Pool.shares_to_amount ⟨3, 10, 0⟩ (Pool.amount_to_shares ⟨3, 10, 0⟩ 4 true) false = some hi ∧
      lo ≤ 4 ∧ 4 ≤ hi :=
  pool_round_trip_bound ⟨3, 10, 0⟩ 4 (by decide) (by decide) (by decide)

/-! ## Claim C3: invariant preservation for deposit/withdraw sequences -/

/-- Claim C3, as stated, is false: `Pool::deposit` takes the shares and the
amount as independent arguments, so the single operation `deposit(shares = 1,
amount = 0)` on the freshly created pool already breaks
`total_balance >= total_shares`. -/
theorem pool_invariant_claim_false :
    Pool.new.invariant ∧ ¬ (Pool.new.deposit 1 0).invariant := by
  exact ⟨by decide, by decide⟩

theorem Pool.step_preserves_invariant (p : Pool) (op : PoolOp) (q : Pool)
    (hinv : p.invariant) (h : p.step op = some q) : q.invariant := by
  unfold Pool.invariant at hinv ⊢
  cases op with
  | deposit a =>
      simp only [Pool.step, Option.some.injEq] at h
      subst h
      simp only [Pool.deposit]
      have hsa : p.amount_to_shares a false ≤ a := by
        unfold Pool.amount_to_shares
        by_cases hB0 : p.balance = 0
        · simp [hB0]
        · have hBpos : 0 < p.balance := Nat.pos_of_ne_zero hB0
          simp only [hB0, if_false, if_neg hB0]
          have h1 : p.shares * a / p.balance ≤ p.balance * a / p.balance :=
            Nat.div_le_div_right (Nat.mul_le_mul_right _ hinv)
          rwa [Nat.mul_div_cancel_left _ hBpos] at h1
      omega
  | withdrawAmount a =>
      simp only [Pool.step, Pool.withdraw] at h
      split at h
      case isTrue hcond =>
        simp only [Option.some.injEq] at h
        subst h
        simp only
        obtain ⟨hsle, hale⟩ := hcond
        by_cases hB0 : p.balance = 0
        · have ha0 : a = 0 := by omega
          simp only [Pool.amount_to_shares, hB0, if_true, ha0] at *
          omega
        · have hBpos : 0 < p.balance := Nat.pos_of_ne_zero hB0
          have hs_def : p.amount_to_shares a true =
              (p.shares * a + (p.balance - 1)) / p.balance := by
            simp [Pool.amount_to_shares, hB0]
          set s := p.amount_to_shares a true with hs
          have hkey : p.shares * a ≤ s * p.balance := by
            rw [hs_def]; exact le_ceil_div_mul _ _ hBpos
          have h2 : (p.shares + a) * p.balance ≤ (p.balance + s) * p.balance := by
            have hcast : ((p.shares : ℤ) + a) * p.balance ≤ ((p.balance : ℤ) + s) * p.balance := by
              have c1 : ((p.shares : ℤ)) ≤ p.balance := by exact_mod_cast hinv
              have c2 : ((a : ℤ)) ≤ p.balance := by exact_mod_cast hale
              have c3 : ((p.shares : ℤ)) * a ≤ s * p.balance := by exact_mod_cast hkey
              nlinarith [mul_nonneg (sub_nonneg.2 c1) (sub_nonneg.2 c2)]
            exact_mod_cast hcast
          have h3 : p.shares + a ≤ p.balance + s := Nat.le_of_mul_le_mul_right h2 hBpos
          omega
      case isFalse => exact absurd h (by simp)
  | withdrawShares s =>
      simp only [Pool.step, bind, Option.bind_eq_some] at h
      obtain ⟨a, ha1, ha2⟩ := h
      simp only [Pool.withdraw] at ha2
      split at ha2
      case isTrue hcond =>
        simp only [Option.some.injEq] at ha2
        subst ha2
        simp only
        obtain ⟨hsle, hale⟩ := hcond
        unfold Pool.shares_to_amount at ha1
        split at ha1
        case isTrue hc =>
          simp only [Option.some.injEq] at ha1
          subst ha1
          rcases hc with hc | hc
          · omega
          · omega
        case isFalse hc =>
          split at ha1
          case isTrue hlt =>
            simp only [Option.some.injEq] at ha1
            have hSpos : 0 < p.shares := by omega
            have hkey : a * p.shares ≤ p.balance * s := by
              rw [← ha1]; simpa using Nat.div_mul_le_self (p.balance * s) p.shares
            have h2 : (p.shares + a) * p.shares ≤ (p.balance + s) * p.shares := by
              have hcast : ((p.shares : ℤ) + a) * p.shares ≤ ((p.balance : ℤ) + s) * p.shares := by
                have c1 : ((p.shares : ℤ)) ≤ p.balance := by exact_mod_cast hinv
                have c2 : ((s : ℤ)) ≤ p.shares := by exact_mod_cast hsle
                have c3 : ((a : ℤ)) * p.shares ≤ p.balance * s := by exact_mod_cast hkey
                nlinarith [mul_nonneg (sub_nonneg.2 c1) (sub_nonneg.2 c2)]
              exact_mod_cast hcast
            have h3 : p.shares + a ≤ p.balance + s := Nat.le_of_mul_le_mul_right h2 hSpos
            omega
          case isFalse => exact absurd ha1 (by simp)
      case isFalse => exact absurd ha2 (by simp)

/-- Claim C3 (amended): for every sequence of pool operations shaped as at
the protocol call sites — deposits with shares derived by
`amount_to_shares(amount, false)`, withdrawals by exact amount with shares
derived by `amount_to_shares(amount, true)`, withdrawals by shares with the
amount derived by `shares_to_amount(shares, false)` — every state reached
without aborting satisfies `total_balance >= total_shares`. -/
theorem pool_invariant_preserved (p : Pool) (ops : List PoolOp) (q : Pool)
    (hinv : p.invariant) (h : p.run ops = some q) : q.invariant := by
  induction ops generalizing p with
  | nil =>
      simp only [Pool.run, Option.some.injEq] at h
      exact h ▸ hinv
  | cons op ops ih =>
      simp only [Pool.run, bind, Option.bind_eq_some] at h
      obtain ⟨p', hstep, hrun⟩ := h
      exact ih p' (Pool.step_preserves_invariant p op p' hinv hstep) hrun

/-- Witness for the amended C3 theorem: a deposit of 7, a withdrawal of 3 by
amount and a withdrawal of 2 by shares, starting from `{shares 3,
balance 10}`, end in a state satisfying the invariant. -/
theorem pool_invariant_preserved_witness :
    (Pool.run ⟨3, 10, 0⟩ [.deposit 7, .withdrawAmount 3, .withdrawShares 2]).elim False Pool.invariant := by
  have h : Pool.run ⟨3, 10, 0⟩ [.deposit 7, .withdrawAmount 3, .withdrawShares 2] =
      some ((Pool.run ⟨3, 10, 0⟩ [.deposit 7, .withdrawAmount 3, .withdrawShares 2]).getD Pool.new) := by
    decide
  rw [h]
  exact pool_invariant_preserved _ _ _ (by decide) h

/-! ## BigDecimal and common helpers

Modelled from the spec: the modules big_decimal.rs and common.rs are declared
in burrow.rs but are not among the provided sources. The spec describes the
type as "an arbitrary-precision-enough decimal type supporting add/sub/mul/
div, power-by-integer (for compounding), and lossless conversion to/from
integer balances with explicit rounding direction"; it is modelled as exact
rationals, with the balance conversions below. -/

/-- Modelled from the spec: the rational value of a rate given as a 27-decimal
fixed-point string, e.g. "1000000000003593629036885046" for a per-millisecond
rate slightly above 1 (asset_config.rs doc comment). -/
def BigDecimal.from_low_u128 (v : Nat) : ℚ := (v : ℚ) / 10 ^ 27

/-- Modelled from the spec: a ratio multiplied by 10000 (e.g. 8000 = 80%). -/
def BigDecimal.from_ratio (r : Nat) : ℚ := (r : ℚ) / 10000

/-- Modelled from the spec: conversion of a decimal times an integer balance
back to an integer balance, rounding to nearest. -/
def BigDecimal.round_mul_u128 (x : ℚ) (b : Nat) : Nat := (⌊x * b + 1 / 2⌋).toNat

/-- Modelled from the spec: the account id of the protocol's own synthetic
stable token (common.rs `usn_id()`, the contract's own account id). -/
def usn_id : TokenId := "usn"

/-- Modelled from the spec: whether a token is the synthetic stable token. -/
def is_usn (token_id : TokenId) : Bool := token_id = usn_id

def max_ratio : Nat := 10000

def max_pos : Nat := 10000

/-- u128_ratio (utils.rs lines 18-25). -/
def u128_ratio (a num denom : Nat) (round_up : Bool) : Nat :=
  (a * num + (if round_up then denom - 1 else 0)) / denom

/-- ratio (utils.rs lines 27-30); the assert on the ratio bound is `none`. -/
def ratio (balance r : Nat) : Option Nat :=
  if r ≤ max_ratio then some (u128_ratio balance r max_ratio false) else none

/-- nano_to_ms (utils.rs lines 6-8); 10u64.pow(6) written as a literal. -/
def nano_to_ms (nano : Nat) : Nat := nano / 1000000

/-- ms_to_nano (utils.rs lines 10-12). -/
def ms_to_nano (ms : Nat) : Nat := ms * 1000000

/-- sec_to_nano (utils.rs lines 14-16); common.rs `to_nano` is the same
conversion of whole seconds to nanoseconds. -/
def sec_to_nano (sec : Nat) : Nat := sec * 1000000000

/-- Oracle price (oracle/priceoracle.rs lines 19-23). -/
structure Price where
  multiplier : Nat
  decimals : Nat
deriving DecidableEq, Repr

/-- Modelled from the spec: value of an integer balance at an oracle price,
`amount * multiplier / 10^(decimals + extra_decimals)` (spec section 4.4 and
the Price structure). -/
def BigDecimal.from_balance_price (amount : Nat) (price : Price) (extra_decimals : Nat) : ℚ :=
  ((amount : ℚ) * price.multiplier) / 10 ^ (price.decimals + extra_decimals)

/-- Modelled from the spec: multiplication by a 10000-based ratio (the
volatility haircut on collateral values). -/
def BigDecimal.mul_ratio (x : ℚ) (r : Nat) : ℚ := x * ((r : ℚ) / 10000)

/-- Modelled from the spec: division by a 10000-based ratio (the volatility
mark-up on borrowed values). -/
def BigDecimal.div_ratio (x : ℚ) (r : Nat) : ℚ := x / ((r : ℚ) / 10000)

/-! ## AssetConfig (src/burrow/asset_config.rs) -/

structure AssetConfig where
  reserve_ratio : Nat
  target_utilization : Nat
  target_utilization_rate : Nat
  max_utilization_rate : Nat
  volatility_ratio : Nat
  extra_decimals : Nat
  can_deposit : Bool
  can_withdraw : Bool
  can_use_as_collateral : Bool
  can_borrow : Bool
  net_tvl_multiplier : Nat
deriving DecidableEq, Repr

/-- AssetConfig::get_rate (asset_config.rs lines 80-109): two-segment
piecewise-linear compounding rate in the utilization, with the synthetic
stable token pinned to 100 percent utilization whenever any is borrowed. -/
def AssetConfig.get_rate (c : AssetConfig) (borrowed_balance total_supplied_balance : Nat)
    (token_id : TokenId) : ℚ :=
  if (total_supplied_balance = 0 ∧ ¬ is_usn token_id) ∨
      (borrowed_balance = 0 ∧ is_usn token_id) then 1
  else
    let pos : ℚ :=
      if is_usn token_id then 1 else (borrowed_balance : ℚ) / (total_supplied_balance : ℚ)
    let target_utilization := BigDecimal.from_ratio c.target_utilization
    if pos < target_utilization then
      1 + pos * (BigDecimal.from_low_u128 c.target_utilization_rate - 1) / target_utilization
    else
      BigDecimal.from_low_u128 c.target_utilization_rate +
        (pos - target_utilization) *
          (BigDecimal.from_low_u128 c.max_utilization_rate -
            BigDecimal.from_low_u128 c.target_utilization_rate) /
          BigDecimal.from_ratio (max_pos - c.target_utilization)

/-! ## Asset (src/burrow/asset.rs) -/

structure Asset where
  supplied : Pool
  borrowed : Pool
  reserved : Nat
  last_update_timestamp : Nat
  config : AssetConfig
deriving DecidableEq, Repr

/-- Asset::get_rate (asset.rs lines 58-64). -/
def Asset.get_rate (a : Asset) (token_id : TokenId) : ℚ :=
  a.config.get_rate a.borrowed.balance (a.supplied.balance + a.reserved) token_id

/-- Asset::compound (asset.rs lines 97-119). The u128 subtraction
`interest = rate^t * borrowed - borrowed` underflows (panics) if the rate is
below one; this and the ratio-bound assert are modelled as `none`. -/
def Asset.compound (a : Asset) (time_diff_ms : Nat) (token_id : TokenId) : Option Asset :=
  let rate := a.get_rate token_id
  let rm := BigDecimal.round_mul_u128 (rate ^ time_diff_ms) a.borrowed.balance
  if a.borrowed.balance ≤ rm then
    let interest := rm - a.borrowed.balance
    match ratio interest a.config.reserve_ratio with
    | none => none
    | some reserved_share =>
        if is_usn token_id then
          some { a with
            supplied := { a.supplied with
              usn_interest := a.supplied.usn_interest + (interest - reserved_share) },
            reserved := a.reserved + reserved_share,
            borrowed := { a.borrowed with
              usn_interest := a.borrowed.usn_interest + interest } }
        else if 0 < a.supplied.shares then
          some { a with
            supplied := { a.supplied with
              balance := a.supplied.balance + (interest - reserved_share) },
            reserved := a.reserved + reserved_share,
            borrowed := { a.borrowed with balance := a.borrowed.balance + interest } }
        else
          some { a with
            reserved := a.reserved + interest,
            borrowed := { a.borrowed with balance := a.borrowed.balance + interest } }
  else none

/-- Asset::update (asset.rs lines 121-129), at an explicit block timestamp.
The u64 subtraction `timestamp - last_update_timestamp` underflows (panics)
if the clock ran backwards; modelled as `none`. -/
def Asset.update (a : Asset) (token_id : TokenId) (block_timestamp : Nat) : Option Asset :=
  if a.last_update_timestamp ≤ block_timestamp then
    let time_diff_ms := nano_to_ms (block_timestamp - a.last_update_timestamp)
    if 0 < time_diff_ms then
      Asset.compound
        { a with last_update_timestamp := a.last_update_timestamp + ms_to_nano time_diff_ms }
        time_diff_ms token_id
    else some a
  else none

/-- Asset::available_amount (asset.rs lines 131-133). The u128 subtraction
underflows only if more is borrowed than supplied plus reserve, which cannot
happen for a stored asset; the claims use the value only as a bound. -/
def Asset.available_amount (a : Asset) : Nat :=
  a.supplied.balance + a.reserved - a.borrowed.balance

/-! ## Claim C8: Asset::update is a no-op at zero elapsed time -/

theorem Asset.compound_preserves_frame (a : Asset) (t : Nat) (tok : TokenId) (a' : Asset)
    (h : a.compound t tok = some a') :
    a'.last_update_timestamp = a.last_update_timestamp ∧ a'.config = a.config ∧
    a'.supplied.shares = a.supplied.shares := by
  simp only [Asset.compound] at h
  split at h
  case isTrue =>
    split at h
    · exact absurd h (by simp)
    · split at h
      · simp only [Option.some.injEq] at h
        subst h
        exact ⟨rfl, rfl, rfl⟩
      · split at h <;> (simp only [Option.some.injEq] at h; subst h; exact ⟨rfl, rfl, rfl⟩)
  case isFalse => exact absurd h (by simp)

/-- Claim C8: calling Asset::update a second time at the same block timestamp
is a no-op; the second call returns the asset unchanged, so
`last_update_timestamp`, `supplied`, `borrowed` and `reserved` are all
unchanged. After the first call the timestamp has advanced to within one
millisecond of the block time, so the elapsed whole milliseconds are zero
and the compounding branch is not entered. -/
theorem asset_update_idempotent (a a' : Asset) (token_id : TokenId) (ts : Nat)
    (h : a.update token_id ts = some a') : a'.update token_id ts = some a' := by
  unfold Asset.update at h
  split at h
  case isTrue hle =>
    by_cases htd : 0 < nano_to_ms (ts - a.last_update_timestamp)
    · rw [if_pos htd] at h
      have hframe := Asset.compound_preserves_frame _ _ _ _ h
      have hlast : a'.last_update_timestamp =
          a.last_update_timestamp + ms_to_nano (nano_to_ms (ts - a.last_update_timestamp)) :=
        hframe.1
      unfold nano_to_ms ms_to_nano at hlast
      have hdm := Nat.div_add_mod (ts - a.last_update_timestamp) 1000000
      have hmlt : (ts - a.last_update_timestamp) % 1000000 < 1000000 :=
        Nat.mod_lt _ (by omega)
      have hle' : a'.last_update_timestamp ≤ ts := by
        rw [hlast]
        omega
      have hzero : nano_to_ms (ts - a'.last_update_timestamp) = 0 := by
        unfold nano_to_ms
        rw [hlast]
        have hdiff : ts - (a.last_update_timestamp +
            (ts - a.last_update_timestamp) / 1000000 * 1000000) =
            (ts - a.last_update_timestamp) % 1000000 := by omega
        rw [hdiff]
        exact Nat.div_eq_of_lt hmlt
      unfold Asset.update
      rw [if_pos hle', hzero]
      simp
    · rw [if_neg htd] at h
      simp only [Option.some.injEq] at h
      subst h
      unfold Asset.update
      rw [if_pos hle, if_neg htd]
  case isFalse => exact absurd h (by simp)

def update_witness_config : AssetConfig :=
  { reserve_ratio := 2500, target_utilization := 8000,
    target_utilization_rate := 2000000000000000000000000000,
    max_utilization_rate := 3000000000000000000000000000,
    volatility_ratio := 6000, extra_decimals := 0,
    can_deposit := true, can_withdraw := true,
    can_use_as_collateral := true, can_borrow := true,
    net_tvl_multiplier := 10000 }

def update_witness_asset : Asset :=
  { supplied := ⟨10, 10, 0⟩, borrowed := ⟨0, 0, 0⟩, reserved := 0,
    last_update_timestamp := 0, config := update_witness_config }

def update_witness_asset_post : Asset :=
  { update_witness_asset with last_update_timestamp := 3000000 }

set_option maxRecDepth 8000 in
/-- Witness for C8: a concrete asset updated at block timestamp 3000000 ns,
then updated again at the same timestamp, is returned unchanged. -/
theorem asset_update_idempotent_witness :
    Asset.update update_witness_asset_post "token.a" 3000000 = some update_witness_asset_post :=
  asset_update_idempotent update_witness_asset update_witness_asset_post "token.a" 3000000 (by
    show Asset.update update_witness_asset "token.a" 3000000 = some update_witness_asset_post
    norm_num [Asset.update, Asset.compound, Asset.get_rate, AssetConfig.get_rate,
      BigDecimal.from_ratio, BigDecimal.from_low_u128, BigDecimal.round_mul_u128,
      nano_to_ms, ms_to_nano, ratio, u128_ratio, is_usn, usn_id, max_ratio, max_pos,
      update_witness_asset, update_witness_asset_post, update_witness_config,
      show ¬ ("token.a" : String) = "usn" by decide])

/-! ## Claim C4: interest split in Asset::compound -/

/-- The interest accrued by `compound` over `t` milliseconds, as stated by
the claim: the fixed-point product of `rate^t` with the borrowed balance,
minus the borrowed balance. -/
def Asset.interest_accrued (a : Asset) (t : Nat) (token_id : TokenId) : Nat :=
  BigDecimal.round_mul_u128 ((a.get_rate token_id) ^ t) a.borrowed.balance - a.borrowed.balance

theorem u128_ratio_le_self (b r d : Nat) (h : r ≤ d) : u128_ratio b r d false ≤ b := by
  unfold u128_ratio
  simp only [if_neg (by simp : ¬ False), Bool.false_eq_true, if_false, Nat.add_zero]
  rcases Nat.eq_zero_or_pos d with hd | hd
  · simp [hd]
  · calc b * r / d ≤ b * d / d := Nat.div_le_div_right (Nat.mul_le_mul_left _ h)
      _ = b := Nat.mul_div_cancel _ hd

/-- Claim C4: for a non-USN asset, a successful `compound(t)` adds
`interest = rate^t * borrowed.balance - borrowed.balance` to the borrowed
balance; when supplied shares are positive the reserve grows by
`ratio(interest, reserve_ratio)` and the supplied balance by the remainder,
when supplied shares are zero the whole interest goes to the reserve; in
both cases `reserved + supplied.balance` grows by exactly `interest`. -/
theorem asset_compound_split (a a' : Asset) (token_id : TokenId) (t : Nat)
    (husn : is_usn token_id = false)
    (h : a.compound t token_id = some a') :
    a'.borrowed.balance = a.borrowed.balance + a.interest_accrued t token_id ∧
    (0 < a.supplied.shares →
      a'.reserved = a.reserved +
        u128_ratio (a.interest_accrued t token_id) a.config.reserve_ratio max_ratio false ∧
      a'.supplied.balance = a.supplied.balance +
        (a.interest_accrued t token_id -
          u128_ratio (a.interest_accrued t token_id) a.config.reserve_ratio max_ratio false)) ∧
    (a.supplied.shares = 0 →
      a'.reserved = a.reserved + a.interest_accrued t token_id ∧
      a'.supplied.balance = a.supplied.balance) ∧
    a'.reserved + a'.supplied.balance =
      a.reserved + a.supplied.balance + a.interest_accrued t token_id := by
  simp only [Asset.compound, husn, Bool.false_eq_true, if_false] at h
  split at h
  case isFalse => exact absurd h (by simp)
  case isTrue hsub =>
    have hint : a.interest_accrued t token_id =
        BigDecimal.round_mul_u128 ((a.get_rate token_id) ^ t) a.borrowed.balance -
          a.borrowed.balance := rfl
    split at h
    · exact absurd h (by simp)
    case h_2 reserved_share hres =>
      unfold ratio at hres
      split at hres
      case isFalse => exact absurd hres (by simp)
      case isTrue hrr =>
        simp only [Option.some.injEq] at hres
        have hshare_le : reserved_share ≤
            BigDecimal.round_mul_u128 ((a.get_rate token_id) ^ t) a.borrowed.balance -
              a.borrowed.balance := by
          rw [← hres]
          exact u128_ratio_le_self _ _ _ hrr
        split at h
        case isTrue hpos =>
          simp only [Option.some.injEq] at h
          subst h
          refine ⟨?_, fun _ => ⟨?_, ?_⟩, fun h0 => absurd h0 (by omega), ?_⟩
          · rw [hint]
          · rw [hint, hres]
          · rw [hint, hres]
          · rw [hint]
            simp only
            omega
        case isFalse hpos =>
          have h0 : a.supplied.shares = 0 := by omega
          simp only [Option.some.injEq] at h
          subst h
          refine ⟨?_, fun hp => absurd hp (by omega), fun _ => ⟨?_, rfl⟩, ?_⟩
          · rw [hint]
          · rw [hint]
          · rw [hint]
            simp only
            omega

def compound_witness_asset : Asset :=
  { supplied := ⟨10, 10, 0⟩, borrowed := ⟨4, 4, 0⟩, reserved := 2,
    last_update_timestamp := 0, config := update_witness_config }

def compound_witness_asset_post : Asset :=
  { supplied := ⟨10, 12, 0⟩, borrowed := ⟨4, 6, 0⟩, reserved := 2,
    last_update_timestamp := 0, config := update_witness_config }

set_option maxRecDepth 8000 in
/-- Witness for C4 at a concrete asset: utilization 4/12, rate 17/12, one
millisecond of compounding. -/
theorem asset_compound_split_witness :
    compound_witness_asset_post.borrowed.balance =
      compound_witness_asset.borrowed.balance +
        compound_witness_asset.interest_accrued 1 "token.a" ∧
    (0 < compound_witness_asset.supplied.shares →
      compound_witness_asset_post.reserved = compound_witness_asset.reserved +
        u128_ratio (compound_witness_asset.interest_accrued 1 "token.a")
          compound_witness_asset.config.reserve_ratio max_ratio false ∧
      compound_witness_asset_post.supplied.balance = compound_witness_asset.supplied.balance +
        (compound_witness_asset.interest_accrued 1 "token.a" -
          u128_ratio (compound_witness_asset.interest_accrued 1 "token.a")
            compound_witness_asset.config.reserve_ratio max_ratio false)) ∧
    (compound_witness_asset.supplied.shares = 0 →
      compound_witness_asset_post.reserved = compound_witness_asset.reserved +
        compound_witness_asset.interest_accrued 1 "token.a" ∧
      compound_witness_asset_post.supplied.balance = compound_witness_asset.supplied.balance) ∧
    compound_witness_asset_post.reserved + compound_witness_asset_post.supplied.balance =
      compound_witness_asset.reserved + compound_witness_asset.supplied.balance +
        compound_witness_asset.interest_accrued 1 "token.a" :=
  asset_compound_split compound_witness_asset compound_witness_asset_post "token.a" 1
    (by decide) (by
    show Asset.compound compound_witness_asset 1 "token.a" = some compound_witness_asset_post
    norm_num [Asset.compound, Asset.get_rate, AssetConfig.get_rate,
      BigDecimal.from_ratio, BigDecimal.from_low_u128, BigDecimal.round_mul_u128,
      ratio, u128_ratio, is_usn, usn_id, max_ratio, max_pos, compound_witness_asset,
      compound_witness_asset_post, update_witness_config,
      show ¬ ("token.a" : String) = "usn" by decide]
    decide)

/-! ## BoosterStaking and Account (src/burrow/booster_staking.rs, account.rs)

The farm bookkeeping fields of an Account (`farms`, `affected_farms`) and the
`storage_tracker` are not part of this state model: the farm engine is
modelled separately (see the AccountFarm section), and the Burrow-level
operations below are modelled for deployments with no asset farms
configured, for which `internal_account_apply_affected_farms` finds no farm
for any affected farm id and therefore changes neither assets nor account
positions (account_farm.rs lines 142-167: without an asset farm every
iteration is skipped and `all_rewards` stays empty). -/

structure BoosterStaking where
  staked_booster_amount : Nat
  x_booster_amount : Nat
  unlock_timestamp : Nat
deriving DecidableEq, Repr

structure Account where
  account_id : TokenId
  supplied : List (TokenId × Nat)
  collateral : List (TokenId × Nat)
  borrowed : List (TokenId × Nat)
  booster_staking : Option BoosterStaking
deriving DecidableEq, Repr

instance : Inhabited Account := ⟨⟨"", [], [], [], none⟩⟩

/-- Account::increase_collateral (account.rs lines 65-70). -/
def Account.increase_collateral (a : Account) (token_id : TokenId) (shares : Nat) : Account :=
  { a with collateral :=
      ainsert a.collateral token_id ((alookup a.collateral token_id).getD 0 + shares) }

/-- Account::decrease_collateral (account.rs lines 72-84): missing entry or
checked_sub underflow panics; a zero result removes the entry. -/
def Account.decrease_collateral (a : Account) (token_id : TokenId) (shares : Nat) :
    Option Account :=
  match alookup a.collateral token_id with
  | none => none
  | some cur =>
      if shares ≤ cur then
        some { a with collateral :=
          if 0 < cur - shares then ainsert a.collateral token_id (cur - shares)
          else aremove a.collateral token_id }
      else none

/-- Account::increase_borrowed (account.rs lines 86-91). -/
def Account.increase_borrowed (a : Account) (token_id : TokenId) (shares : Nat) : Account :=
  { a with borrowed :=
      ainsert a.borrowed token_id ((alookup a.borrowed token_id).getD 0 + shares) }

/-- Account::decrease_borrowed (account.rs lines 93-105). -/
def Account.decrease_borrowed (a : Account) (token_id : TokenId) (shares : Nat) :
    Option Account :=
  match alookup a.borrowed token_id with
  | none => none
  | some cur =>
      if shares ≤ cur then
        some { a with borrowed :=
          if 0 < cur - shares then ainsert a.borrowed token_id (cur - shares)
          else aremove a.borrowed token_id }
      else none

/-- Account::internal_unwrap_collateral (account.rs lines 107-112). -/
def Account.internal_unwrap_collateral (a : Account) (token_id : TokenId) : Option Nat :=
  alookup a.collateral token_id

/-- Account::internal_unwrap_borrowed (account.rs lines 114-119). -/
def Account.internal_unwrap_borrowed (a : Account) (token_id : TokenId) : Option Nat :=
  alookup a.borrowed token_id

/-- Account::internal_get_asset (account_asset.rs lines 55-59): the supplied
share count for a token. -/
def Account.internal_get_asset (a : Account) (token_id : TokenId) : Option Nat :=
  alookup a.supplied token_id

/-- Account::internal_unwrap_asset (account_asset.rs lines 51-53). -/
def Account.internal_unwrap_asset (a : Account) (token_id : TokenId) : Option Nat :=
  a.internal_get_asset token_id

/-- Account::internal_get_asset_or_default (account_asset.rs lines 61-64). -/
def Account.internal_get_asset_or_default (a : Account) (token_id : TokenId) : Nat :=
  (a.internal_get_asset token_id).getD 0

/-- Account::internal_set_asset (account_asset.rs lines 66-73): an empty
account asset is removed, otherwise stored. -/
def Account.internal_set_asset (a : Account) (token_id : TokenId) (shares : Nat) : Account :=
  { a with supplied :=
      if shares = 0 then aremove a.supplied token_id else ainsert a.supplied token_id shares }

/-! ## Config and Burrow state (src/burrow/config.rs, burrow.rs) -/

def min_booster_multiplier : Nat := 10000

structure Config where
  booster_token_id : TokenId
  booster_decimals : Nat
  max_num_assets : Nat
  maximum_recency_duration_sec : Nat
  maximum_staleness_duration_sec : Nat
  minimum_staking_duration_sec : Nat
  maximum_staking_duration_sec : Nat
  x_booster_multiplier_at_maximum_staking_duration : Nat
  force_closing_enabled : Bool
deriving DecidableEq, Repr

/-- Config::assert_valid (config.rs lines 50-61). -/
def Config.Valid (c : Config) : Prop :=
  c.minimum_staking_duration_sec < c.maximum_staking_duration_sec ∧
  min_booster_multiplier ≤ c.x_booster_multiplier_at_maximum_staking_duration

/-- The Burrow state touched by the embedded operations: the asset and
account stores and the config. `assets` plays the role of the
per-invocation memoized asset cache (asset.rs lines 141-152): every stored
asset has already been updated at the current block timestamp once when
first loaded, and by claim C8 re-updating within the same block is a no-op,
so reads inside one invocation return the stored asset unchanged. -/
structure Burrow where
  accounts : List (TokenId × Account)
  assets : List (TokenId × Asset)
  config : Config
deriving DecidableEq, Repr

/-- Burrow::internal_unwrap_asset (asset.rs lines 137-139). -/
def Burrow.internal_unwrap_asset (b : Burrow) (token_id : TokenId) : Option Asset :=
  alookup b.assets token_id

/-- Burrow::internal_set_asset (asset.rs lines 154-170): a supplied pool
with no shares is swept into the reserve, then the borrowed-pool emptiness
invariant and both pool invariants are asserted. -/
def Burrow.internal_set_asset (b : Burrow) (token_id : TokenId) (asset : Asset) :
    Option Burrow :=
  let asset :=
    if asset.supplied.shares = 0 ∧ 0 < asset.supplied.balance then
      { asset with
        reserved := asset.reserved + asset.supplied.balance,
        supplied := { asset.supplied with balance := 0 } }
    else asset
  if (0 < asset.borrowed.shares ∨ asset.borrowed.balance = 0) ∧
      asset.supplied.invariant ∧ asset.borrowed.invariant then
    some { b with assets := ainsert b.assets token_id asset }
  else none

/-- Burrow::internal_unwrap_account (account.rs lines 171-174). -/
def Burrow.internal_unwrap_account (b : Burrow) (account_id : TokenId) : Option Account :=
  alookup b.accounts account_id

/-- Burrow::internal_set_account (account.rs lines 176-186); the storage
byte accounting is not part of this model. -/
def Burrow.internal_set_account (b : Burrow) (account_id : TokenId) (account : Account) :
    Burrow :=
  { b with accounts := ainsert b.accounts account_id account }

/-! ## Action sizing helper and position actions (src/burrow/actions.rs) -/

structure AssetAmount where
  token_id : TokenId
  amount : Option Nat
  max_amount : Option Nat
deriving DecidableEq, Repr

/-- AssetAmount::new (actions.rs lines 17-25). -/
def AssetAmount.new (token_id : TokenId) (amount : Nat) : AssetAmount :=
  ⟨token_id, some amount, none⟩

/-- asset_amount_to_shares (actions.rs lines 662-689): exact-amount requests
derive shares with the opposite rounding; max-amount requests cap the shares
by the held shares and the amount by the cap; otherwise all held shares are
used. Zero shares or a zero amount fail the trailing asserts. -/
def asset_amount_to_shares (pool : Pool) (available_shares : Nat)
    (asset_amount : AssetAmount) (round_up : Bool) : Option (Nat × Nat) := do
  let (shares, amount) ←
    match asset_amount.amount with
    | some amount => some (pool.amount_to_shares amount (!round_up), amount)
    | none =>
      match asset_amount.max_amount with
      | some max_amount => do
          let shares := min available_shares (pool.amount_to_shares max_amount (!round_up))
          let amt ← pool.shares_to_amount shares round_up
          pure (shares, min amt max_amount)
      | none => do
          let amt ← pool.shares_to_amount available_shares round_up
          pure (available_shares, amt)
  if 0 < shares ∧ 0 < amount then pure (shares, amount) else none

/-- Burrow::internal_deposit (actions.rs lines 183-201). -/
def Burrow.internal_deposit (b : Burrow) (account : Account) (token_id : TokenId)
    (amount : Nat) : Option (Burrow × Account × Nat) := do
  let asset ← b.internal_unwrap_asset token_id
  let account_asset := account.internal_get_asset_or_default token_id
  let shares := asset.supplied.amount_to_shares amount false
  let account := account.internal_set_asset token_id (account_asset + shares)
  let b ← b.internal_set_asset token_id
    { asset with supplied := asset.supplied.deposit shares amount }
  pure (b, account, shares)

/-- Burrow::internal_withdraw (actions.rs lines 203-235): requires the
withdraw capability, shares sized by `asset_amount_to_shares` with
`round_up = false`, and the amount bounded by `available_amount`. -/
def Burrow.internal_withdraw (b : Burrow) (account : Account) (asset_amount : AssetAmount) :
    Option (Burrow × Account × Nat) := do
  let asset ← b.internal_unwrap_asset asset_amount.token_id
  if asset.config.can_withdraw then
    let account_shares ← account.internal_unwrap_asset asset_amount.token_id
    let (shares, amount) ← asset_amount_to_shares asset.supplied account_shares asset_amount false
    if amount ≤ asset.available_amount then
      if shares ≤ account_shares then
        let account := account.internal_set_asset asset_amount.token_id (account_shares - shares)
        let supplied ← asset.supplied.withdraw shares amount
        let b ← b.internal_set_asset asset_amount.token_id { asset with supplied := supplied }
        pure (b, account, amount)
      else none
    else none
  else none

/-- Burrow::internal_borrow (actions.rs lines 297-332): requires the borrow
capability and the amount bounded by `available_amount`; the borrowed amount
is credited back into the account's supplied position. -/
def Burrow.internal_borrow (b : Burrow) (account : Account) (asset_amount : AssetAmount) :
    Option (Burrow × Account × Nat) := do
  let asset ← b.internal_unwrap_asset asset_amount.token_id
  if asset.config.can_borrow then
    let account_supplied := account.internal_get_asset_or_default asset_amount.token_id
    let available_amount := asset.available_amount
    let max_borrow_shares := asset.borrowed.amount_to_shares available_amount false
    let (borrowed_shares, amount) ←
      asset_amount_to_shares asset.borrowed max_borrow_shares asset_amount true
    if amount ≤ available_amount then
      let supplied_shares := asset.supplied.amount_to_shares amount false
      let b ← b.internal_set_asset asset_amount.token_id
        { asset with
          borrowed := asset.borrowed.deposit borrowed_shares amount,
          supplied := asset.supplied.deposit supplied_shares amount }
      let account := account.increase_borrowed asset_amount.token_id borrowed_shares
      let account := account.internal_set_asset asset_amount.token_id
        (account_supplied + supplied_shares)
      pure (b, account, amount)
    else none
  else none

/-- Burrow::internal_repay (actions.rs lines 334-373). `account_asset` is
the payer's supplied share count for the token and `account` is the debtor;
when the implied supplied shares exceed the held shares, the repayment is
clamped to the held balance and the minimum-amount assert must still hold. -/
def Burrow.internal_repay (b : Burrow) (account_asset : Nat) (account : Account)
    (asset_amount : AssetAmount) : Option (Burrow × Nat × Account × Nat) := do
  let asset ← b.internal_unwrap_asset asset_amount.token_id
  let available_borrowed_shares ← account.internal_unwrap_borrowed asset_amount.token_id
  let (borrowed_shares0, amount0) ←
    asset_amount_to_shares asset.borrowed available_borrowed_shares asset_amount true
  let supplied_shares0 := asset.supplied.amount_to_shares amount0 true
  let (supplied_shares, amount, borrowed_shares) ←
    if account_asset < supplied_shares0 then do
      let amount ← asset.supplied.shares_to_amount account_asset false
      let min_ok : Bool := match asset_amount.amount with
        | some min_amount => decide (min_amount ≤ amount)
        | none => true
      if min_ok = true ∧ 0 < amount then
        let borrowed_shares := asset.borrowed.amount_to_shares amount false
        if 0 < borrowed_shares ∧ borrowed_shares ≤ available_borrowed_shares then
          pure (account_asset, amount, borrowed_shares)
        else none
      else none
    else pure (supplied_shares0, amount0, borrowed_shares0)
  let supplied ← asset.supplied.withdraw supplied_shares amount
  let borrowed ← asset.borrowed.withdraw borrowed_shares amount
  let b ← b.internal_set_asset asset_amount.token_id
    { asset with supplied := supplied, borrowed := borrowed }
  let account ← account.decrease_borrowed asset_amount.token_id borrowed_shares
  if supplied_shares ≤ account_asset then
    pure (b, account_asset - supplied_shares, account, amount)
  else none

/-! ## Claim C5: available_amount bounds every withdraw and borrow -/

theorem asset_amount_to_shares_exact (pool : Pool) (avail : Nat) (aa : AssetAmount)
    (ru : Bool) (sh amt r : Nat) (hr : aa.amount = some r)
    (h : asset_amount_to_shares pool avail aa ru = some (sh, amt)) : amt = r := by
  unfold asset_amount_to_shares at h
  rw [hr] at h
  simp only [bind, Option.bind_eq_some, Option.some.injEq, Prod.mk.injEq] at h
  obtain ⟨⟨sh0, amt0⟩, ⟨h1, h2⟩, h⟩ := h
  split at h
  · simp only [pure, Option.some.injEq, Prod.mk.injEq] at h
    omega
  · exact absurd h (by simp)

theorem internal_borrow_bounded (b : Burrow) (account : Account) (aa : AssetAmount)
    (b' : Burrow) (account' : Account) (amt : Nat)
    (h : b.internal_borrow account aa = some (b', account', amt)) :
    ∃ asset, b.internal_unwrap_asset aa.token_id = some asset ∧
      amt ≤ asset.available_amount ∧ ∀ r, aa.amount = some r → amt = r := by
  simp only [Burrow.internal_borrow, bind, Option.bind_eq_some] at h
  obtain ⟨asset, hasset, h⟩ := h
  refine ⟨asset, hasset, ?_⟩
  split at h
  case isFalse => exact absurd h (by simp)
  case isTrue =>
    simp only [Option.bind_eq_some] at h
    obtain ⟨⟨bs, amount⟩, hsz, h⟩ := h
    split at h
    case isFalse => exact absurd h (by simp)
    case isTrue hle =>
      simp only [Option.bind_eq_some] at h
      obtain ⟨b2, hset, h⟩ := h
      simp only [pure, Option.some.injEq, Prod.mk.injEq] at h
      obtain ⟨-, -, hamt⟩ := h
      subst hamt
      exact ⟨hle, fun r hr => asset_amount_to_shares_exact _ _ _ _ _ _ _ hr hsz⟩

theorem internal_withdraw_bounded (b : Burrow) (account : Account) (aa : AssetAmount)
    (b' : Burrow) (account' : Account) (amt : Nat)
    (h : b.internal_withdraw account aa = some (b', account', amt)) :
    ∃ asset, b.internal_unwrap_asset aa.token_id = some asset ∧
      amt ≤ asset.available_amount ∧ ∀ r, aa.amount = some r → amt = r := by
  simp only [Burrow.internal_withdraw, bind, Option.bind_eq_some] at h
  obtain ⟨asset, hasset, h⟩ := h
  refine ⟨asset, hasset, ?_⟩
  split at h
  case isFalse => exact absurd h (by simp)
  case isTrue =>
    simp only [Option.bind_eq_some] at h
    obtain ⟨shs, hshs, h⟩ := h
    obtain ⟨⟨sh, amount⟩, hsz, h⟩ := h
    split at h
    case isFalse => exact absurd h (by simp)
    case isTrue hle =>
      split at h
      case isFalse => exact absurd h (by simp)
      case isTrue =>
        simp only [Option.bind_eq_some] at h
        obtain ⟨pool', hpool, h⟩ := h
        obtain ⟨b2, hset, h⟩ := h
        simp only [pure, Option.some.injEq, Prod.mk.injEq] at h
        obtain ⟨-, -, hamt⟩ := h
        subst hamt
        exact ⟨hle, fun r hr => asset_amount_to_shares_exact _ _ _ _ _ _ _ hr hsz⟩

theorem internal_borrow_exceed_aborts (b : Burrow) (account : Account) (aa : AssetAmount)
    (r : Nat) (asset : Asset) (hr : aa.amount = some r)
    (hasset : b.internal_unwrap_asset aa.token_id = some asset)
    (hlt : asset.available_amount < r) : b.internal_borrow account aa = none := by
  by_contra hne
  obtain ⟨⟨b', account', amt⟩, hres⟩ := Option.ne_none_iff_exists'.mp hne
  obtain ⟨asset2, hasset2, hle, hexact⟩ := internal_borrow_bounded _ _ _ _ _ _ hres
  rw [hasset] at hasset2
  cases hasset2
  have := hexact r hr
  omega

theorem internal_withdraw_exceed_aborts (b : Burrow) (account : Account) (aa : AssetAmount)
    (r : Nat) (asset : Asset) (hr : aa.amount = some r)
    (hasset : b.internal_unwrap_asset aa.token_id = some asset)
    (hlt : asset.available_amount < r) : b.internal_withdraw account aa = none := by
  by_contra hne
  obtain ⟨⟨b', account', amt⟩, hres⟩ := Option.ne_none_iff_exists'.mp hne
  obtain ⟨asset2, hasset2, hle, hexact⟩ := internal_withdraw_bounded _ _ _ _ _ _ hres
  rw [hasset] at hasset2
  cases hasset2
  have := hexact r hr
  omega

/-- The scenario of claim C5: one asset holding exactly 100 supplied (the
account's own deposit) and nothing borrowed or reserved. -/
def c5_account : Account := ⟨"alice", [("token.a", 100)], [], [], none⟩

def c5_config : Config :=
  { booster_token_id := "booster", booster_decimals := 18, max_num_assets := 20,
    maximum_recency_duration_sec := 90, maximum_staleness_duration_sec := 15,
    minimum_staking_duration_sec := 2592000, maximum_staking_duration_sec := 31104000,
    x_booster_multiplier_at_maximum_staking_duration := 120000,
    force_closing_enabled := true }

def c5_asset : Asset :=
  { supplied := ⟨100, 100, 0⟩, borrowed := ⟨0, 0, 0⟩, reserved := 0,
    last_update_timestamp := 0, config := update_witness_config }

def c5_burrow : Burrow :=
  { accounts := [("alice", c5_account)], assets := [("token.a", c5_asset)],
    config := c5_config }

/-- Claim C5: a successful borrow or withdraw returns an amount bounded by
`available_amount() = supplied.balance + reserved - borrowed.balance` (and
equal to the requested exact amount when one was given); an exact request
exceeding the bound makes the action abort; in particular borrowing 101
against an asset holding exactly 100 supplied and nothing borrowed or
reserved fails for every acting account. -/
theorem actions_bounded_by_available_amount :
    (∀ (b : Burrow) (account : Account) (aa : AssetAmount) b' account' amt,
      b.internal_borrow account aa = some (b', account', amt) →
      ∃ asset, b.internal_unwrap_asset aa.token_id = some asset ∧
        amt ≤ asset.available_amount ∧ ∀ r, aa.amount = some r → amt = r) ∧
    (∀ (b : Burrow) (account : Account) (aa : AssetAmount) b' account' amt,
      b.internal_withdraw account aa = some (b', account', amt) →
      ∃ asset, b.internal_unwrap_asset aa.token_id = some asset ∧
        amt ≤ asset.available_amount ∧ ∀ r, aa.amount = some r → amt = r) ∧
    (∀ (b : Burrow) (account : Account) (aa : AssetAmount) (r : Nat) (asset : Asset),
      aa.amount = some r → b.internal_unwrap_asset aa.token_id = some asset →
      asset.available_amount < r → b.internal_borrow account aa = none) ∧
    (∀ (b : Burrow) (account : Account) (aa : AssetAmount) (r : Nat) (asset : Asset),
      aa.amount = some r → b.internal_unwrap_asset aa.token_id = some asset →
      asset.available_amount < r → b.internal_withdraw account aa = none) ∧
    (∀ account : Account,
      c5_burrow.internal_borrow account ⟨"token.a", some 101, none⟩ = none) := by
  refine ⟨internal_borrow_bounded, internal_withdraw_bounded,
    internal_borrow_exceed_aborts, internal_withdraw_exceed_aborts, ?_⟩
  intro account
  exact internal_borrow_exceed_aborts c5_burrow account ⟨"token.a", some 101, none⟩ 101 c5_asset
    rfl (by decide) (by decide)


def c5_borrow_result : Burrow × Account × Nat :=
  (c5_burrow.internal_borrow c5_account ⟨"token.a", some 40, none⟩).getD
    (c5_burrow, c5_account, 0)

/-- Witness for C5: a concrete successful borrow of 40 against the asset
holding 100 supplied is bounded by the available amount. -/
theorem actions_bounded_witness :
    ∃ asset, c5_burrow.internal_unwrap_asset "token.a" = some asset ∧
      40 ≤ asset.available_amount ∧
      ∀ r, (AssetAmount.mk "token.a" (some 40) none).amount = some r → 40 = r :=
  actions_bounded_by_available_amount.1 c5_burrow c5_account ⟨"token.a", some 40, none⟩
    c5_borrow_result.1 c5_borrow_result.2.1 40 (by decide)

/-! ## Claim C10: pagination semantics of get_assets_paged vs get_accounts_paged -/

/-- Burrow::get_assets_paged (asset.rs lines 189-205): iterates the index
range `from_index .. min(keys.len(), limit)` over the asset-ids vector;
`load` stands for the per-index body (loading the stored asset by key and
lazily updating it), which cannot change which indices are visited. -/
def get_assets_paged {α β : Type} [Inhabited α] (keys : List α) (load : α → β)
    (from_index limit : Option Nat) : List β :=
  let f := from_index.getD 0
  let l := limit.getD keys.length
  (List.range' f (min keys.length l - f)).map (fun i => load (keys.getD i default))

/-- Burrow::get_accounts_paged (account.rs lines 194-201): iterates the
index range `from_index .. min(values.len(), from_index + limit)` over the
accounts vector; `load` stands for the per-index body (the version-enum
unwrap). -/
def get_accounts_paged {α β : Type} [Inhabited α] (values : List α) (load : α → β)
    (from_index limit : Option Nat) : List β :=
  let f := from_index.getD 0
  let l := limit.getD values.length
  (List.range' f (min values.length (f + l) - f)).map
    (fun i => load (values.getD i default))

theorem range_map_getD {α β : Type} [Inhabited α] (v : List α) (load : α → β) :
    ∀ (n f : Nat), f + n ≤ v.length →
      (List.range' f n).map (fun i => load (v.getD i default)) =
        ((v.drop f).take n).map load := by
  intro n
  induction n with
  | zero => intro f _; simp
  | succ n ih =>
      intro f hf
      have hflt : f < v.length := by omega
      rw [List.range'_succ, List.map_cons, List.drop_eq_getElem_cons hflt]
      simp only [List.take_succ_cons, List.map_cons]
      rw [List.getD_eq_getElem v default hflt, ih (f + 1) (by omega)]

/-- Claim C10: `get_assets_paged` treats `limit` as an exclusive end index
(the result is the slice at indices `[from_index, min(len, limit))`, so
`from_index = 2, limit = 2` yields the empty list), while
`get_accounts_paged` treats `limit` as a count (the result is the slice of
up to `limit` elements starting at `from_index`). -/
theorem pagination_semantics :
    (∀ (keys : List TokenId) (load : TokenId → TokenId × Asset) (f l : Nat),
      get_assets_paged keys load (some f) (some l) =
        ((keys.drop f).take (min keys.length l - f)).map load) ∧
    (∀ (values : List Account) (load : Account → Account) (f l : Nat),
      get_accounts_paged values load (some f) (some l) =
        ((values.drop f).take l).map load) ∧
    get_assets_paged ["a0", "a1", "a2", "a3", "a4"]
      (fun k => (k, c5_asset)) (some 2) (some 2) = [] := by
  refine ⟨?_, ?_, by decide⟩
  · intro keys load f l
    unfold get_assets_paged
    simp only [Option.getD_some]
    by_cases hf : f ≤ min keys.length l
    · exact range_map_getD keys load (min keys.length l - f) f (by omega)
    · rw [show min keys.length l - f = 0 by omega]
      simp
  · intro values load f l
    unfold get_accounts_paged
    simp only [Option.getD_some]
    by_cases hf : f ≤ values.length
    · rw [range_map_getD values load (min values.length (f + l) - f) f (by omega)]
      congr 1
      rw [List.take_eq_take, List.length_drop]
      omega
    · rw [show min values.length (f + l) - f = 0 by omega]
      rw [List.drop_eq_nil_of_le (by omega)]
      simp

/-! ## Farm reward claim (src/burrow/account_farm.rs) -/

inductive FarmId where
  | Supplied (token_id : TokenId)
  | Borrowed (token_id : TokenId)
  | NetTvl
deriving DecidableEq, Repr

structure AccountFarmReward where
  boosted_shares : Nat
  last_reward_per_share : ℚ
deriving DecidableEq

structure AccountFarm where
  block_timestamp : Nat
  rewards : List (TokenId × AccountFarmReward)
deriving DecidableEq

/-- AccountFarm::new (account_farm.rs lines 33-40). -/
def AccountFarm.new : AccountFarm := ⟨0, []⟩

structure AssetFarmReward where
  reward_per_day : Nat
  booster_log_base : Nat
  remaining_rewards : Nat
  boosted_shares : Nat
  reward_per_share : ℚ
deriving DecidableEq

structure AssetFarm where
  block_timestamp : Nat
  rewards : List (TokenId × AssetFarmReward)
  inactive_rewards : List (TokenId × AssetFarmReward)
deriving DecidableEq

/-- The first settlement loop of internal_account_farm_claim (account_farm.rs
lines 88-117): walk the farm's active rewards; a token the account was
already tracking contributes `(reward_per_share - last_reward_per_share) *
boosted_shares` (dropped when zero) and keeps its boosted shares, any other
token starts at zero boosted shares; either way the checkpoint is advanced
to the farm's current reward_per_share. Returns the rebuilt reward map, the
owed amounts, and the account rewards not matched by an active farm reward
(`old_rewards` after the removals). -/
def farm_claim_loop1 (old_rewards : List (TokenId × AccountFarmReward)) :
    List (TokenId × AssetFarmReward) →
    List (TokenId × AccountFarmReward) × List (TokenId × Nat) ×
      List (TokenId × AccountFarmReward)
  | [] => ([], [], old_rewards)
  | (token_id, afr) :: rest =>
      match alookup old_rewards token_id with
      | some r =>
          let amount := BigDecimal.round_mul_u128
            (afr.reward_per_share - r.last_reward_per_share) r.boosted_shares
          let res := farm_claim_loop1 (aremove old_rewards token_id) rest
          ((token_id, ⟨r.boosted_shares, afr.reward_per_share⟩) :: res.1,
            (if 0 < amount then [(token_id, amount)] else []) ++ res.2.1, res.2.2)
      | none =>
          let res := farm_claim_loop1 old_rewards rest
          ((token_id, ⟨0, afr.reward_per_share⟩) :: res.1, res.2.1, res.2.2)

/-- The inactive-reward loop of internal_account_farm_claim (account_farm.rs
lines 118-137): every remaining account reward is settled once against the
inactive-reward snapshot (the `.unwrap()` on a missing snapshot panics) and
reported for removal from the inactive bookkeeping. -/
def farm_claim_loop2 (asset_farm : AssetFarm) :
    List (TokenId × AccountFarmReward) → Option (List (TokenId × Nat) × List (TokenId × Nat))
  | [] => some ([], [])
  | (token_id, r) :: rest =>
      match alookup asset_farm.inactive_rewards token_id with
      | none => none
      | some afr => do
          let amount := BigDecimal.round_mul_u128
            (afr.reward_per_share - r.last_reward_per_share) r.boosted_shares
          let res ← farm_claim_loop2 asset_farm rest
          some ((if 0 < amount then [(token_id, amount)] else []) ++ res.1,
            (token_id, r.boosted_shares) :: res.2)

/-- Burrow::internal_account_farm_claim (account_farm.rs lines 68-140), over
the account's farm map and an explicit block timestamp: when the stored
per-account farm was already settled at this exact block timestamp the
function returns it unchanged with no new rewards; otherwise both loops run
and the checkpoint timestamp advances. -/
def internal_account_farm_claim (farms : List (FarmId × AccountFarm)) (farm_id : FarmId)
    (asset_farm : AssetFarm) (block_timestamp : Nat) :
    Option (AccountFarm × List (TokenId × Nat) × List (TokenId × Nat)) :=
  let account_farm := (alookup farms farm_id).getD AccountFarm.new
  if account_farm.block_timestamp ≠ block_timestamp then
    let res1 := farm_claim_loop1 account_farm.rewards asset_farm.rewards
    match farm_claim_loop2 asset_farm res1.2.2 with
    | none => none
    | some res2 =>
        some (⟨block_timestamp, res1.1⟩, res1.2.1 ++ res2.1, res2.2)
  else some (account_farm, [], [])

/-! ## Claim C7: farm settlement is idempotent within one block -/

theorem farm_claim_loop1_lookup (l : List (TokenId × AssetFarmReward))
    (t : TokenId) (afr : AssetFarmReward)
    (hnodup : (l.map Prod.fst).Nodup) (hmem : (t, afr) ∈ l) :
    ∀ old, ∃ bs, alookup (farm_claim_loop1 old l).1 t =
      some ⟨bs, afr.reward_per_share⟩ := by
  induction l with
  | nil => cases hmem
  | cons hd rest ih =>
      obtain ⟨t0, afr0⟩ := hd
      intro old
      simp only [List.map_cons, List.nodup_cons] at hnodup
      rcases List.mem_cons.mp hmem with heq | hmem'
      · have ht : t = t0 := congrArg Prod.fst heq
        have hafr : afr = afr0 := congrArg Prod.snd heq
        rw [ht, hafr]
        unfold farm_claim_loop1
        cases halo : alookup old t0 with
        | some r => exact ⟨r.boosted_shares, by simp [halo, alookup]⟩
        | none => exact ⟨0, by simp [halo, alookup]⟩
      · have hne : t0 ≠ t := fun hc =>
          hnodup.1 (hc.symm ▸ List.mem_map.mpr ⟨(t, afr), hmem', rfl⟩)
        unfold farm_claim_loop1
        cases halo : alookup old t0 with
        | some r =>
            obtain ⟨bs, hbs⟩ := ih hnodup.2 hmem' (aremove old t0)
            exact ⟨bs, by simp [halo, alookup, hne, hbs]⟩
        | none =>
            obtain ⟨bs, hbs⟩ := ih hnodup.2 hmem' old
            exact ⟨bs, by simp [halo, alookup, hne, hbs]⟩

/-- Claim C7: running per-account farm settlement a second time at the same
block timestamp with no intervening position change returns the settled farm
unchanged and no new rewards; moreover, after a settlement that actually ran
(the stored checkpoint was from an older block), the owed delta
`(reward_per_share_now - last_reward_per_share) * boosted_shares` is zero
for every reward token the farm tracks. -/
theorem farm_claim_idempotent (farms : List (FarmId × AccountFarm)) (farm_id : FarmId)
    (asset_farm : AssetFarm) (ts : Nat) (af1 : AccountFarm) (nr ir : List (TokenId × Nat))
    (hnodup : (asset_farm.rewards.map Prod.fst).Nodup)
    (h : internal_account_farm_claim farms farm_id asset_farm ts = some (af1, nr, ir)) :
    internal_account_farm_claim (ainsert farms farm_id af1) farm_id asset_farm ts =
      some (af1, [], []) ∧
    (((alookup farms farm_id).getD AccountFarm.new).block_timestamp ≠ ts →
      ∀ t afr, (t, afr) ∈ asset_farm.rewards →
        ∃ br, alookup af1.rewards t = some br ∧
          (afr.reward_per_share - br.last_reward_per_share) * (br.boosted_shares : ℚ) = 0) := by
  have hbt : af1.block_timestamp = ts ∧
      (((alookup farms farm_id).getD AccountFarm.new).block_timestamp ≠ ts →
        af1.rewards = (farm_claim_loop1
          ((alookup farms farm_id).getD AccountFarm.new).rewards asset_farm.rewards).1) := by
    simp only [internal_account_farm_claim] at h
    split at h
    case isTrue hcond =>
      split at h
      · exact absurd h (by simp)
      · simp only [Option.some.injEq, Prod.mk.injEq] at h
        obtain ⟨h1, -, -⟩ := h
        subst h1
        exact ⟨rfl, fun _ => rfl⟩
    case isFalse hcond =>
      simp only [Option.some.injEq, Prod.mk.injEq] at h
      obtain ⟨h1, -, -⟩ := h
      subst h1
      simp only [ne_eq, not_not] at hcond
      exact ⟨hcond, fun hc => absurd hcond hc⟩
  constructor
  · unfold internal_account_farm_claim
    rw [alookup_ainsert_self]
    simp [hbt.1]
  · intro hfresh t afr hmem
    obtain ⟨bs, hbs⟩ := farm_claim_loop1_lookup asset_farm.rewards t afr hnodup hmem
      ((alookup farms farm_id).getD AccountFarm.new).rewards
    refine ⟨⟨bs, afr.reward_per_share⟩, ?_, by simp⟩
    rw [hbt.2 hfresh]
    exact hbs

def c7_asset_farm : AssetFarm := ⟨7, [("rew", ⟨100, 0, 50, 0, (3 : ℚ)⟩)], []⟩

def c7_af1 : AccountFarm := ⟨5, [("rew", ⟨0, (3 : ℚ)⟩)]⟩

/-- Witness for C7: settling a fresh account against a one-reward farm at
block timestamp 5, then settling again at the same timestamp, yields the
same farm record and no new rewards. -/
theorem farm_claim_idempotent_witness :
    internal_account_farm_claim (ainsert [] FarmId.NetTvl c7_af1) FarmId.NetTvl
      c7_asset_farm 5 = some (c7_af1, [], []) ∧
    (((alookup ([] : List (FarmId × AccountFarm)) FarmId.NetTvl).getD
        AccountFarm.new).block_timestamp ≠ 5 →
      ∀ t afr, (t, afr) ∈ c7_asset_farm.rewards →
        ∃ br, alookup c7_af1.rewards t = some br ∧
          (afr.reward_per_share - br.last_reward_per_share) * (br.boosted_shares : ℚ) = 0) :=
  farm_claim_idempotent [] FarmId.NetTvl c7_asset_farm 5 c7_af1 [] []
    (by simp [c7_asset_farm]) (by
      norm_num [internal_account_farm_claim, farm_claim_loop1, farm_claim_loop2,
        alookup, AccountFarm.new, c7_asset_farm, c7_af1])

/-! ## Booster staking (src/burrow/booster_staking.rs) -/

/-- compute_x_booster_amount (booster_staking.rs lines 137-149): the staked
amount plus a linear-in-duration bonus. The u128 subtractions cannot
underflow when the config is valid and the duration passed the range check;
`to_nano` from the absent common.rs is whole-second to nanosecond conversion
like `sec_to_nano`. -/
def compute_x_booster_amount (config : Config) (amount : Nat) (duration_ns : Nat) : Nat :=
  amount + u128_ratio amount
    ((config.x_booster_multiplier_at_maximum_staking_duration - min_booster_multiplier) *
      (duration_ns - sec_to_nano config.minimum_staking_duration_sec))
    (sec_to_nano (config.maximum_staking_duration_sec - config.minimum_staking_duration_sec) *
      min_booster_multiplier)
    false

/-- The share/amount sizing of account_stake_booster (booster_staking.rs
lines 38-45): an explicit amount is converted to shares rounding up,
otherwise all held shares are staked at their rounded-down value. -/
def stake_shares_amount (asset : Asset) (account_shares : Nat) (amount? : Option Nat) :
    Option (Nat × Nat) :=
  match amount? with
  | some amount => some (asset.supplied.amount_to_shares amount true, amount)
  | none => do
      let amt ← asset.supplied.shares_to_amount account_shares false
      pure (account_shares, amt)

/-- The re-stake step of account_stake_booster (booster_staking.rs lines
62-81): an existing stake requires the new unlock timestamp to be no
earlier than the stored one and keeps the larger of the stored and the
freshly recomputed boosted amount; otherwise a default record is started. -/
def restake_booster_staking (config : Config) (old : Option BoosterStaking)
    (new_unlock_timestamp_ns new_duration_ns : Nat) : Option BoosterStaking :=
  match old with
  | some bs =>
      if bs.unlock_timestamp ≤ new_unlock_timestamp_ns then
        some { bs with
          x_booster_amount :=
            max bs.x_booster_amount
              (compute_x_booster_amount config bs.staked_booster_amount new_duration_ns) }
      else none
  | none => some ⟨0, 0, 0⟩

/-- Burrow::account_stake_booster (booster_staking.rs lines 20-104): checks
the duration range, withdraws the staked amount from the account's supplied
booster-token position, applies the re-stake step, then adds the newly
staked amount and its boost. The final farm reassessment is a no-op without
configured asset farms. -/
def Burrow.account_stake_booster (b : Burrow) (account_id : TokenId) (amount? : Option Nat)
    (duration : Nat) (timestamp : Nat) : Option Burrow := do
  let config := b.config
  if config.minimum_staking_duration_sec ≤ duration ∧
      duration ≤ config.maximum_staking_duration_sec then
    let account ← b.internal_unwrap_account account_id
    let asset ← b.internal_unwrap_asset config.booster_token_id
    let account_shares ← account.internal_unwrap_asset config.booster_token_id
    let (shares, amount) ← stake_shares_amount asset account_shares amount?
    if 0 < shares ∧ 0 < amount then
      if shares ≤ account_shares then
        let account := account.internal_set_asset config.booster_token_id
          (account_shares - shares)
        let supplied ← asset.supplied.withdraw shares amount
        let b ← b.internal_set_asset config.booster_token_id { asset with supplied := supplied }
        let new_duration_ns := sec_to_nano duration
        let new_unlock_timestamp_ns := timestamp + new_duration_ns
        let booster_staking ← restake_booster_staking config account.booster_staking
          new_unlock_timestamp_ns new_duration_ns
        let booster_staking : BoosterStaking :=
          { unlock_timestamp := new_unlock_timestamp_ns,
            staked_booster_amount := booster_staking.staked_booster_amount + amount,
            x_booster_amount := booster_staking.x_booster_amount +
              compute_x_booster_amount config amount new_duration_ns }
        let account := { account with booster_staking := some booster_staking }
        pure (b.internal_set_account account_id account)
      else none
    else none
  else none

/-! ## Claim C6: booster staking invariant and re-stake monotonicity -/

theorem compute_x_booster_amount_ge (config : Config) (amount duration_ns : Nat) :
    amount ≤ compute_x_booster_amount config amount duration_ns :=
  Nat.le_add_right _ _

/-- Claim C6: a successful booster stake leaves the account with a staking
record satisfying `x_booster_amount >= staked_booster_amount`; when the
account already had a stake, the call succeeded only because the new unlock
timestamp is not before the stored one, the stored boost becomes the
maximum of the previous and the freshly recomputed boosted amounts plus the
boost of the newly staked amount, and in particular the boost never
decreases. -/
theorem stake_booster_props (b : Burrow) (account_id : TokenId) (amount? : Option Nat)
    (duration ts : Nat) (b' : Burrow) (account : Account)
    (hacct : b.internal_unwrap_account account_id = some account)
    (h : b.account_stake_booster account_id amount? duration ts = some b') :
    ∃ account' bs', b'.internal_unwrap_account account_id = some account' ∧
      account'.booster_staking = some bs' ∧
      bs'.staked_booster_amount ≤ bs'.x_booster_amount ∧
      (∀ bs0, account.booster_staking = some bs0 →
        bs0.unlock_timestamp ≤ ts + sec_to_nano duration ∧
        (∃ amt, bs'.x_booster_amount =
            max bs0.x_booster_amount
              (compute_x_booster_amount b.config bs0.staked_booster_amount
                (sec_to_nano duration)) +
              compute_x_booster_amount b.config amt (sec_to_nano duration) ∧
          bs'.staked_booster_amount = bs0.staked_booster_amount + amt) ∧
        bs0.x_booster_amount ≤ bs'.x_booster_amount) := by
  simp only [Burrow.account_stake_booster] at h
  split at h
  case isFalse => exact absurd h (by simp)
  case isTrue hdur =>
    rw [option_bind_eq_some_helper] at h
    obtain ⟨acct1, hacct1, h⟩ := h
    rw [hacct] at hacct1
    cases hacct1
    try dsimp only at h
    rw [option_bind_eq_some_helper] at h
    obtain ⟨asset, hasset, h⟩ := h
    try dsimp only at h
    rw [option_bind_eq_some_helper] at h
    obtain ⟨account_shares, hshares, h⟩ := h
    try dsimp only at h
    rw [option_bind_eq_some_helper] at h
    obtain ⟨⟨shares, amt⟩, hsz, h⟩ := h
    try dsimp only at h
    split at h
    case isFalse => exact absurd h (by simp)
    case isTrue hpos =>
      split at h
      case isFalse => exact absurd h (by simp)
      case isTrue hle =>
        rw [option_bind_eq_some_helper] at h
        obtain ⟨supplied, hsup, h⟩ := h
        try dsimp only at h
        rw [option_bind_eq_some_helper] at h
        obtain ⟨b2, hset, h⟩ := h
        try dsimp only at h
        rw [option_bind_eq_some_helper] at h
        obtain ⟨bs1, hbs1, h⟩ := h
        try dsimp only at h
        simp only [pure, Option.some.injEq] at h
        subst h
        simp only [Account.internal_set_asset] at hbs1
        refine ⟨_, _, alookup_ainsert_self _ _ _, rfl, ?_, ?_⟩
        · show bs1.staked_booster_amount + amt ≤
            bs1.x_booster_amount + compute_x_booster_amount b.config amt (sec_to_nano duration)
          have h1 : amt ≤ compute_x_booster_amount b.config amt (sec_to_nano duration) :=
            compute_x_booster_amount_ge _ _ _
          have h2 : bs1.staked_booster_amount ≤ bs1.x_booster_amount := by
            unfold restake_booster_staking at hbs1
            split at hbs1
            case h_1 bs0 heq =>
              split at hbs1
              · simp only [Option.some.injEq] at hbs1
                subst hbs1
                show bs0.staked_booster_amount ≤ max bs0.x_booster_amount _
                exact le_trans (compute_x_booster_amount_ge _ _ _) (le_max_right _ _)
              · exact absurd hbs1 (by simp)
            case h_2 heq =>
              simp only [Option.some.injEq] at hbs1
              subst hbs1
              exact le_rfl
          omega
        · intro bs0 hbs0
          unfold restake_booster_staking at hbs1
          rw [hbs0] at hbs1
          try dsimp only at hbs1
          split at hbs1
          case isTrue hunlock =>
            simp only [Option.some.injEq] at hbs1
            subst hbs1
            refine ⟨hunlock, ⟨amt, rfl, rfl⟩, ?_⟩
            exact le_trans (le_max_left _ _) (Nat.le_add_right _ _)
          case isFalse => exact absurd hbs1 (by simp)

def c6_config : Config :=
  { booster_token_id := "booster", booster_decimals := 18, max_num_assets := 20,
    maximum_recency_duration_sec := 90, maximum_staleness_duration_sec := 15,
    minimum_staking_duration_sec := 100, maximum_staking_duration_sec := 200,
    x_booster_multiplier_at_maximum_staking_duration := 20000,
    force_closing_enabled := true }

def c6_account : Account := ⟨"alice", [("booster", 50)], [], [], none⟩

def c6_asset : Asset :=
  { supplied := ⟨50, 50, 0⟩, borrowed := ⟨0, 0, 0⟩, reserved := 0,
    last_update_timestamp := 0, config := update_witness_config }

def c6_burrow : Burrow :=
  { accounts := [("alice", c6_account)], assets := [("booster", c6_asset)],
    config := c6_config }

def c6_result : Burrow :=
  (c6_burrow.account_stake_booster "alice" (some 10) 150 1000).getD c6_burrow

/-- Witness for C6: a concrete first-time stake of 10 booster tokens for 150
seconds yields a staking record satisfying the invariant. -/
theorem stake_booster_props_witness :
    ∃ account' bs', c6_result.internal_unwrap_account "alice" = some account' ∧
      account'.booster_staking = some bs' ∧
      bs'.staked_booster_amount ≤ bs'.x_booster_amount ∧
      (∀ bs0, c6_account.booster_staking = some bs0 →
        bs0.unlock_timestamp ≤ 1000 + sec_to_nano 150 ∧
        (∃ amt, bs'.x_booster_amount =
            max bs0.x_booster_amount
              (compute_x_booster_amount c6_burrow.config bs0.staked_booster_amount
                (sec_to_nano 150)) +
              compute_x_booster_amount c6_burrow.config amt (sec_to_nano 150) ∧
          bs'.staked_booster_amount = bs0.staked_booster_amount + amt) ∧
        bs0.x_booster_amount ≤ bs'.x_booster_amount) :=
  stake_booster_props c6_burrow "alice" (some 10) 150 1000 c6_result c6_account
    (by decide) (by decide)

/-! ## Prices and liquidation (src/burrow/prices.rs, actions.rs) -/

structure Prices where
  prices : List (TokenId × Price)
deriving DecidableEq, Repr

/-- Prices::get_unwrap (prices.rs lines 20-29): the synthetic stable token
is always priced 1:1 (multiplier 10000 at 22 decimals); a missing price for
any other token panics. -/
def Prices.get_unwrap (p : Prices) (token_id : TokenId) : Option Price :=
  if is_usn token_id then some ⟨10000, 22⟩
  else alookup p.prices token_id

/-- Burrow::compute_max_discount (actions.rs lines 587-629) over an explicit
asset store (`&self` is used only for asset lookups): zero without borrows
or when the haircut collateral value covers the marked-up borrowed value,
otherwise half the relative shortfall. -/
def compute_max_discount_assets (assets : List (TokenId × Asset)) (account : Account)
    (prices : Prices) : Option ℚ :=
  if account.borrowed.isEmpty then some 0
  else do
    let collateral_sum ← account.collateral.foldlM (fun sum entry => do
        let asset ← alookup assets entry.1
        let amt ← asset.supplied.shares_to_amount entry.2 false
        let balance := amt + asset.supplied.usn_interest
        let price ← prices.get_unwrap entry.1
        pure (sum + BigDecimal.mul_ratio
          (BigDecimal.from_balance_price balance price asset.config.extra_decimals)
          asset.config.volatility_ratio)) (0 : ℚ)
    let borrowed_sum ← account.borrowed.foldlM (fun sum entry => do
        let asset ← alookup assets entry.1
        let amt ← asset.borrowed.shares_to_amount entry.2 true
        let balance := amt + asset.borrowed.usn_interest
        let price ← prices.get_unwrap entry.1
        pure (sum + BigDecimal.div_ratio
          (BigDecimal.from_balance_price balance price asset.config.extra_decimals)
          asset.config.volatility_ratio)) (0 : ℚ)
    if borrowed_sum ≤ collateral_sum then pure 0
    else pure ((borrowed_sum - collateral_sum) / borrowed_sum / 2)

def Burrow.compute_max_discount (b : Burrow) (account : Account) (prices : Prices) :
    Option ℚ :=
  compute_max_discount_assets b.assets account prices

/-- Burrow::internal_decrease_collateral (actions.rs lines 261-278):
`account_asset` is the receiving side's supplied share count, `account` the
collateral owner. -/
def Burrow.internal_decrease_collateral (b : Burrow) (account_asset : Nat)
    (account : Account) (asset_amount : AssetAmount) : Option (Account × Nat × Nat) := do
  let asset ← b.internal_unwrap_asset asset_amount.token_id
  let collateral_shares ← account.internal_unwrap_collateral asset_amount.token_id
  let (shares, amount) ←
    asset_amount_to_shares asset.supplied collateral_shares asset_amount false
  let account ← account.decrease_collateral asset_amount.token_id shares
  pure (account, account_asset + shares, amount)

/-- Burrow::calculate_usn_interest (actions.rs lines 631-640); the U256
division by a zero borrowed balance panics. -/
def Burrow.calculate_usn_interest (b : Burrow) (amount : Nat) : Option Nat := do
  let asset ← b.internal_unwrap_asset usn_id
  if asset.borrowed.balance = 0 then none
  else pure (u128_ratio amount asset.borrowed.usn_interest asset.borrowed.balance true)

/-- Burrow::without_usn_interest (actions.rs lines 642-659). -/
def Burrow.without_usn_interest (b : Burrow) (repay_amount : Nat) : Option Nat := do
  let asset ← b.internal_unwrap_asset usn_id
  if asset.borrowed.usn_interest + asset.borrowed.balance = 0 then none
  else pure (u128_ratio repay_amount asset.borrowed.balance
    (asset.borrowed.usn_interest + asset.borrowed.balance) false)

/-- Burrow::withdraw_usn_interest (actions.rs lines 375-404). -/
def Burrow.withdraw_usn_interest (b : Burrow) (account : Account) (repay_amount : Nat) :
    Option (Burrow × Nat × Nat) := do
  let asset ← b.internal_unwrap_asset usn_id
  let available_borrowed_shares ← account.internal_unwrap_borrowed usn_id
  let borrow_amount ← b.without_usn_interest repay_amount
  let borrowed_shares :=
    min (asset.borrowed.amount_to_shares borrow_amount true) available_borrowed_shares
  let borrow_amount ← asset.borrowed.shares_to_amount borrowed_shares true
  let borrow_interest ← b.calculate_usn_interest borrow_amount
  if borrow_interest ≤ asset.borrowed.usn_interest then
    let b ← b.internal_set_asset usn_id
      { asset with borrowed := { asset.borrowed with
          usn_interest := asset.borrowed.usn_interest - borrow_interest } }
    pure (b, borrow_amount, borrow_amount + borrow_interest)
  else none

/-- Burrow::decrease_usn_asset_supply (actions.rs lines 286-295). -/
def Burrow.decrease_usn_asset_supply (b : Burrow) (amount : Nat) : Option Burrow := do
  let usn_account ← b.internal_unwrap_account usn_id
  let (b, usn_account, _amt) ← b.internal_withdraw usn_account (AssetAmount.new usn_id amount)
  pure (b.internal_set_account usn_id usn_account)

/-- One iteration of the in_assets loop of internal_liquidate (actions.rs
lines 426-471), over the state (burrow, liquidator account, liquidation
account, borrowed_repaid_sum). The USN arm nets against the borrow-interest
ledger on behalf of the USN account; the ordinary arm mirrors Repay. -/
def liquidate_in_step (prices : Prices) (st : Burrow × Account × Account × ℚ)
    (asset_amount : AssetAmount) : Option (Burrow × Account × Account × ℚ) := do
  let (b, account, liquidation_account, sum) := st
  let (amount, b, account, liquidation_account, account_asset) ←
    if is_usn asset_amount.token_id then do
      if is_usn account.account_id then do
        let amount ← asset_amount.amount
        let (b, borrow_amount, repay_amount) ←
          b.withdraw_usn_interest liquidation_account amount
        let (b, account, _shares) ← b.internal_deposit account usn_id borrow_amount
        let account_asset ← account.internal_unwrap_asset usn_id
        let (b, account_asset, liquidation_account, _amt) ←
          b.internal_repay account_asset liquidation_account (AssetAmount.new usn_id borrow_amount)
        let b ← b.decrease_usn_asset_supply borrow_amount
        pure (repay_amount, b, account, liquidation_account, account_asset)
      else none
    else do
      let account_asset ← account.internal_unwrap_asset asset_amount.token_id
      let (b, account_asset, liquidation_account, amount) ←
        b.internal_repay account_asset liquidation_account asset_amount
      pure (amount, b, account, liquidation_account, account_asset)
  let account := account.internal_set_asset asset_amount.token_id account_asset
  let asset ← b.internal_unwrap_asset asset_amount.token_id
  let price ← prices.get_unwrap asset_amount.token_id
  pure (b, account, liquidation_account,
    sum + BigDecimal.from_balance_price amount price asset.config.extra_decimals)

/-- One iteration of the out_assets loop of internal_liquidate (actions.rs
lines 473-490), over the state (burrow, liquidator account, liquidation
account, collateral_taken_sum): seized collateral moves into the
liquidator's supplied position at its current share value. -/
def liquidate_out_step (prices : Prices) (st : Burrow × Account × Account × ℚ)
    (asset_amount : AssetAmount) : Option (Burrow × Account × Account × ℚ) := do
  let (b, account, liquidation_account, sum) := st
  let asset ← b.internal_unwrap_asset asset_amount.token_id
  let account_asset := account.internal_get_asset_or_default asset_amount.token_id
  let (liquidation_account, account_asset, amount) ←
    b.internal_decrease_collateral account_asset liquidation_account asset_amount
  let account := account.internal_set_asset asset_amount.token_id account_asset
  let price ← prices.get_unwrap asset_amount.token_id
  pure (b, account, liquidation_account,
    sum + BigDecimal.from_balance_price amount price asset.config.extra_decimals)

/-- Burrow::internal_liquidate (actions.rs lines 406-520): requires the
target to be at risk, repays in_assets on its behalf, seizes out_assets
from its collateral, and accepts only when the discounted collateral taken
does not exceed the value repaid and the recomputed discount is still
positive but strictly smaller. The farm reassessment before persisting is
a no-op without configured asset farms. -/
def Burrow.internal_liquidate (b : Burrow) (account_id : TokenId) (account : Account)
    (prices : Prices) (liquidation_account_id : TokenId)
    (in_assets out_assets : List AssetAmount) : Option (Burrow × Account × ℚ × ℚ) := do
  let liquidation_account ← b.internal_unwrap_account liquidation_account_id
  let max_discount ← b.compute_max_discount liquidation_account prices
  if 0 < max_discount then
    let st1 ← in_assets.foldlM (liquidate_in_step prices)
      (b, account, liquidation_account, (0 : ℚ))
    let (b, account, liquidation_account, borrowed_repaid_sum) := st1
    let st2 ← out_assets.foldlM (liquidate_out_step prices)
      (b, account, liquidation_account, (0 : ℚ))
    let (b, account, liquidation_account, collateral_taken_sum) := st2
    if collateral_taken_sum * (1 - max_discount) ≤ borrowed_repaid_sum then
      let new_max_discount ← b.compute_max_discount liquidation_account prices
      if 0 < new_max_discount then
        if new_max_discount < max_discount then
          pure (b.internal_set_account liquidation_account_id liquidation_account,
            account, collateral_taken_sum, borrowed_repaid_sum)
        else none
      else none
    else none
  else none

/-- Burrow::internal_force_close (actions.rs lines 522-585): usable only
when enabled; seizes all collateral into reserves, writes all debt off
against reserves, and requires the account to be insolvent. -/
def Burrow.internal_force_close (b : Burrow) (prices : Prices)
    (liquidation_account_id : TokenId) : Option Burrow := do
  if b.config.force_closing_enabled then
    let liquidation_account ← b.internal_unwrap_account liquidation_account_id
    let st1 ← liquidation_account.collateral.foldlM (fun st entry => do
        let (b, sum) := st
        let asset ← b.internal_unwrap_asset entry.1
        let amount ← asset.supplied.shares_to_amount entry.2 false
        let supplied ← asset.supplied.withdraw entry.2 amount
        let asset := { asset with reserved := asset.reserved + amount, supplied := supplied }
        let price ← prices.get_unwrap entry.1
        let sum := sum + BigDecimal.from_balance_price amount price asset.config.extra_decimals
        let b ← b.internal_set_asset entry.1 asset
        pure (b, sum)) (b, (0 : ℚ))
    let (b, collateral_sum) := st1
    let st2 ← liquidation_account.borrowed.foldlM (fun st entry => do
        let (b, sum) := st
        let asset ← b.internal_unwrap_asset entry.1
        let amount ← asset.borrowed.shares_to_amount entry.2 true
        if amount ≤ asset.reserved then
          let borrowed ← asset.borrowed.withdraw entry.2 amount
          let asset := { asset with reserved := asset.reserved - amount, borrowed := borrowed }
          let price ← prices.get_unwrap entry.1
          let sum := sum + BigDecimal.from_balance_price amount price asset.config.extra_decimals
          let b ← b.internal_set_asset entry.1 asset
          pure (b, sum)
        else none) (b, (0 : ℚ))
    let (b, borrowed_sum) := st2
    if collateral_sum < borrowed_sum then
      pure (b.internal_set_account liquidation_account_id
        { liquidation_account with collateral := [], borrowed := [] })
    else none
  else none

/-- The Action::Liquidate dispatch arm (actions.rs lines 137-155): the
self-liquidation assert and the non-emptiness assert run before
internal_liquidate. -/
def Burrow.dispatch_liquidate (b : Burrow) (account_id : TokenId) (account : Account)
    (prices : Prices) (liquidation_account_id : TokenId)
    (in_assets out_assets : List AssetAmount) : Option (Burrow × Account × ℚ × ℚ) :=
  if account_id ≠ liquidation_account_id then
    if ¬ in_assets.isEmpty ∧ ¬ out_assets.isEmpty then
      b.internal_liquidate account_id account prices liquidation_account_id
        in_assets out_assets
    else none
  else none

/-- The Action::ForceClose dispatch arm (actions.rs lines 156-164). -/
def Burrow.dispatch_force_close (b : Burrow) (account_id : TokenId) (prices : Prices)
    (liquidation_account_id : TokenId) : Option Burrow :=
  if account_id ≠ liquidation_account_id then
    b.internal_force_close prices liquidation_account_id
  else none

/-! ## Claim C2: liquidation safety -/

/-- Claim C2: every successful Liquidate requires the target's
pre-liquidation max discount to be positive, and at completion the
discounted collateral value taken is bounded by the value repaid and the
discount recomputed on the stored post-liquidation target account is
strictly smaller than before yet still strictly positive; any violated
condition returns `none` (the batch aborts). -/
theorem liquidation_safety (b : Burrow) (account_id : TokenId) (account : Account)
    (prices : Prices) (liq_id : TokenId) (in_assets out_assets : List AssetAmount)
    (b' : Burrow) (account' : Account) (taken repaid : ℚ)
    (h : b.internal_liquidate account_id account prices liq_id in_assets out_assets =
      some (b', account', taken, repaid)) :
    ∃ liq0 d0 liq1 d1,
      b.internal_unwrap_account liq_id = some liq0 ∧
      b.compute_max_discount liq0 prices = some d0 ∧
      b'.internal_unwrap_account liq_id = some liq1 ∧
      b'.compute_max_discount liq1 prices = some d1 ∧
      0 < d0 ∧ taken * (1 - d0) ≤ repaid ∧ d1 < d0 ∧ 0 < d1 := by
  simp only [Burrow.internal_liquidate] at h
  rw [option_bind_eq_some_helper] at h
  obtain ⟨liq0, hliq0, h⟩ := h
  try dsimp only at h
  rw [option_bind_eq_some_helper] at h
  obtain ⟨d0, hd0, h⟩ := h
  try dsimp only at h
  split at h
  case isFalse => exact absurd h (by simp)
  case isTrue hd0pos =>
  rw [option_bind_eq_some_helper] at h
  obtain ⟨⟨b2, acct2, liq2, repaidSum⟩, hst1, h⟩ := h
  try dsimp only at h
  rw [option_bind_eq_some_helper] at h
  obtain ⟨⟨b3, acct3, liq3, takenSum⟩, hst2, h⟩ := h
  try dsimp only at h
  split at h
  case isFalse => exact absurd h (by simp)
  case isTrue hguard =>
  rw [option_bind_eq_some_helper] at h
  obtain ⟨d1, hd1, h⟩ := h
  try dsimp only at h
  split at h
  case isFalse => exact absurd h (by simp)
  case isTrue hd1pos =>
  split at h
  case isFalse => exact absurd h (by simp)
  case isTrue hlt =>
  simp only [pure, Option.some.injEq, Prod.mk.injEq] at h
  obtain ⟨hb', hacct', htaken, hrepaid⟩ := h
  subst hb' hacct' htaken hrepaid
  refine ⟨liq0, d0, liq3, d1, hliq0, hd0, ?_, ?_, hd0pos, hguard, hlt, hd1pos⟩
  · simp [Burrow.internal_set_account, Burrow.internal_unwrap_account, alookup_ainsert_self]
  · exact hd1

/-! ## Claim C9: no self-liquidation -/

/-- Claim C9: the Liquidate and ForceClose dispatch arms abort whenever the
acting account id equals the liquidation target's account id, so an account
can never liquidate or force-close itself. -/
theorem no_self_liquidation (b : Burrow) (account_id : TokenId) (account : Account)
    (prices : Prices) (in_assets out_assets : List AssetAmount) :
    b.dispatch_liquidate account_id account prices account_id in_assets out_assets = none ∧
    b.dispatch_force_close account_id prices account_id = none := by
  constructor
  · simp [Burrow.dispatch_liquidate]
  · simp [Burrow.dispatch_force_close]

def c2_config_a : AssetConfig :=
  ⟨2500, 8000, 0, 0, 5000, 0, true, true, true, true, 10000⟩

def c2_config_b : AssetConfig :=
  ⟨2500, 8000, 0, 0, 8000, 0, true, true, true, true, 10000⟩

def c2_asset_a : Asset :=
  { supplied := ⟨100, 100, 0⟩, borrowed := ⟨0, 0, 0⟩, reserved := 0,
    last_update_timestamp := 0, config := c2_config_a }

def c2_asset_b : Asset :=
  { supplied := ⟨100, 100, 0⟩, borrowed := ⟨60, 60, 0⟩, reserved := 0,
    last_update_timestamp := 0, config := c2_config_b }

def c2_caller : Account := ⟨"liq", [("token.b", 50)], [], [], none⟩

def c2_target : Account := ⟨"bob", [], [("token.a", 100)], [("token.b", 60)], none⟩

def c2_bconfig : Config := ⟨"booster", 18, 10, 90, 15, 2678400, 31536000, 40000, true⟩

def c2_burrow : Burrow :=
  { accounts := [("liq", c2_caller), ("bob", c2_target)],
    assets := [("token.a", c2_asset_a), ("token.b", c2_asset_b)],
    config := c2_bconfig }

def c2_prices : Prices := ⟨[("token.a", ⟨10000, 4⟩), ("token.b", ⟨10000, 4⟩)]⟩

def c2_asset_b_post : Asset :=
  { supplied := ⟨70, 70, 0⟩, borrowed := ⟨30, 30, 0⟩, reserved := 0,
    last_update_timestamp := 0, config := c2_config_b }

def c2_target_post : Account := ⟨"bob", [], [("token.a", 70)], [("token.b", 30)], none⟩

def c2_caller_post : Account := ⟨"liq", [("token.a", 30), ("token.b", 20)], [], [], none⟩

def c2_post_burrow : Burrow :=
  { accounts := [("bob", c2_target_post), ("liq", c2_caller)],
    assets := [("token.b", c2_asset_b_post), ("token.a", c2_asset_a)],
    config := c2_bconfig }

def c2_mid_burrow : Burrow :=
  { accounts := [("liq", c2_caller), ("bob", c2_target)],
    assets := [("token.b", c2_asset_b_post), ("token.a", c2_asset_a)],
    config := c2_bconfig }

def c2_caller1 : Account := ⟨"liq", [("token.b", 20)], [], [], none⟩

def c2_target1 : Account := ⟨"bob", [], [("token.a", 100)], [("token.b", 30)], none⟩

set_option maxRecDepth 10000 in
set_option maxHeartbeats 2000000 in
theorem liquidation_safety_witness :
    ∃ liq0 d0 liq1 d1,
      c2_burrow.internal_unwrap_account "bob" = some liq0 ∧
      c2_burrow.compute_max_discount liq0 c2_prices = some d0 ∧
      c2_post_burrow.internal_unwrap_account "bob" = some liq1 ∧
      c2_post_burrow.compute_max_discount liq1 c2_prices = some d1 ∧
      0 < d0 ∧ (30 : ℚ) * (1 - d0) ≤ 30 ∧ d1 < d0 ∧ 0 < d1 :=
  liquidation_safety c2_burrow "liq" c2_caller c2_prices "bob"
    [AssetAmount.new "token.b" 30] [AssetAmount.new "token.a" 30]
    c2_post_burrow c2_caller_post 30 30 (by
      have hacct : c2_burrow.internal_unwrap_account "bob" = some c2_target := by decide
      have hd0 : c2_burrow.compute_max_discount c2_target c2_prices = some (1 / 6 : ℚ) := by
        norm_num [Burrow.compute_max_discount, compute_max_discount_assets,
          Prices.get_unwrap, Pool.shares_to_amount, BigDecimal.from_balance_price,
          BigDecimal.mul_ratio, BigDecimal.div_ratio, is_usn, usn_id, alookup,
          c2_burrow, c2_target, c2_prices, c2_asset_a, c2_asset_b, c2_config_a,
          c2_config_b, List.foldlM_cons, List.foldlM_nil,
          show ("token.a" : String) ≠ "token.b" from by decide,
          show ("token.b" : String) ≠ "token.a" from by decide,
          show ("token.a" : String) ≠ "usn" from by decide,
          show ("token.b" : String) ≠ "usn" from by decide]
      have hua : c2_caller.internal_unwrap_asset "token.b" = some 50 := by decide
      have hrepay : c2_burrow.internal_repay 50 c2_target ⟨"token.b", some 30, none⟩ =
          some (c2_mid_burrow, 20, c2_target1, 30) := by decide
      have hsa1 : c2_caller.internal_set_asset "token.b" 20 = c2_caller1 := by decide
      have hub : c2_mid_burrow.internal_unwrap_asset "token.b" = some c2_asset_b_post := by
        decide
      have hpb : c2_prices.get_unwrap "token.b" = some ⟨10000, 4⟩ := by decide
      have hedb : c2_asset_b_post.config.extra_decimals = 0 := by decide
      have hin : liquidate_in_step c2_prices (c2_burrow, c2_caller, c2_target, (0 : ℚ))
          (AssetAmount.new "token.b" 30) =
          some (c2_mid_burrow, c2_caller1, c2_target1, 30) := by
        norm_num [liquidate_in_step, AssetAmount.new, is_usn, usn_id, hua, hrepay,
          hsa1, hub, hpb, hedb, BigDecimal.from_balance_price,
          show ("token.b" : String) ≠ "usn" from by decide]
      have hga : c2_caller1.internal_get_asset_or_default "token.a" = 0 := by decide
      have hdec : c2_mid_burrow.internal_decrease_collateral 0 c2_target1
          ⟨"token.a", some 30, none⟩ = some (c2_target_post, 30, 30) := by decide
      have hsa2 : c2_caller1.internal_set_asset "token.a" 30 = c2_caller_post := by decide
      have huA : c2_mid_burrow.internal_unwrap_asset "token.a" = some c2_asset_a := by decide
      have hpa : c2_prices.get_unwrap "token.a" = some ⟨10000, 4⟩ := by decide
      have heda : c2_asset_a.config.extra_decimals = 0 := by decide
      have hout : liquidate_out_step c2_prices (c2_mid_burrow, c2_caller1, c2_target1, (0 : ℚ))
          (AssetAmount.new "token.a" 30) =
          some (c2_mid_burrow, c2_caller_post, c2_target_post, 30) := by
        norm_num [liquidate_out_step, AssetAmount.new, hga, hdec, hsa2, huA, hpa,
          heda, BigDecimal.from_balance_price]
      have hd1 : c2_mid_burrow.compute_max_discount c2_target_post c2_prices =
          some (1 / 30 : ℚ) := by
        norm_num [Burrow.compute_max_discount, compute_max_discount_assets,
          Prices.get_unwrap, Pool.shares_to_amount, BigDecimal.from_balance_price,
          BigDecimal.mul_ratio, BigDecimal.div_ratio, is_usn, usn_id, alookup,
          c2_mid_burrow, c2_target_post, c2_prices, c2_asset_a, c2_asset_b_post,
          c2_config_a, c2_config_b, List.foldlM_cons, List.foldlM_nil,
          show ("token.a" : String) ≠ "token.b" from by decide,
          show ("token.b" : String) ≠ "token.a" from by decide,
          show ("token.a" : String) ≠ "usn" from by decide,
          show ("token.b" : String) ≠ "usn" from by decide]
      have hset : c2_mid_burrow.internal_set_account "bob" c2_target_post = c2_post_burrow := by
        decide
      norm_num [Burrow.internal_liquidate, hacct, hd0, List.foldlM_cons, List.foldlM_nil,
        hin, hout, hd1, hset])
